import Mathlib

/-!
# PortaPack baseband core (`firmware/baseband/main.cpp`)

A shallow embedding of the transmit synthesizers (`LCRFSKProcessor`,
`JammerProcessor`), of the `BasebandConfiguration` message handler registered in
`main` and of `EventDispatcher::dispatch`, followed by theorems about them.

Conventions:
* unsigned machine integers are `Nat` reduced explicitly modulo `2^w`,
  signed ones are `Int`;
* `shared_memory` is an explicit record threaded through `execute`;
* `application_queue.push` appends to a list, so the list is the history of
  pushed messages in push order;
* where the source adds a constant to an accumulator (`phase + (256<<16)`,
  `aphase += 35320`) the sum is written with the constant first, so that the
  sum does not reduce to an iterated successor of a symbolic accumulator.
-/

namespace Baseband

/-! ## Sine table and fixed-point helpers -/

/-- The table `static const int8_t sintab[1024]`, entries in source order. -/
def sintab : List Int := [
  0, 1, 2, 2, 3, 4, 5, 5, 6, 7, 8, 9, 9, 10, 11, 12,
  12, 13, 14, 15, 16, 16, 17, 18, 19, 19, 20, 21, 22, 22, 23, 24,
  25, 26, 26, 27, 28, 29, 29, 30, 31, 32, 32, 33, 34, 35, 35, 36,
  37, 38, 38, 39, 40, 41, 41, 42, 43, 44, 44, 45, 46, 46, 47, 48,
  49, 49, 50, 51, 51, 52, 53, 54, 54, 55, 56, 56, 57, 58, 58, 59,
  60, 61, 61, 62, 63, 63, 64, 65, 65, 66, 67, 67, 68, 69, 69, 70,
  71, 71, 72, 72, 73, 74, 74, 75, 76, 76, 77, 78, 78, 79, 79, 80,
  81, 81, 82, 82, 83, 84, 84, 85, 85, 86, 86, 87, 88, 88, 89, 89,
  90, 90, 91, 91, 92, 93, 93, 94, 94, 95, 95, 96, 96, 97, 97, 98,
  98, 99, 99, 100, 100, 101, 101, 102, 102, 102, 103, 103, 104, 104, 105, 105,
  106, 106, 106, 107, 107, 108, 108, 109, 109, 109, 110, 110, 111, 111, 111, 112,
  112, 112, 113, 113, 113, 114, 114, 114, 115, 115, 115, 116, 116, 116, 117, 117,
  117, 118, 118, 118, 118, 119, 119, 119, 120, 120, 120, 120, 121, 121, 121, 121,
  122, 122, 122, 122, 122, 123, 123, 123, 123, 123, 124, 124, 124, 124, 124, 124,
  125, 125, 125, 125, 125, 125, 125, 126, 126, 126, 126, 126, 126, 126, 126, 126,
  126, 126, 127, 127, 127, 127, 127, 127, 127, 127, 127, 127, 127, 127, 127, 127,
  127, 127, 127, 127, 127, 127, 127, 127, 127, 127, 127, 127, 127, 127, 127, 126,
  126, 126, 126, 126, 126, 126, 126, 126, 126, 126, 125, 125, 125, 125, 125, 125,
  125, 124, 124, 124, 124, 124, 124, 123, 123, 123, 123, 123, 122, 122, 122, 122,
  122, 121, 121, 121, 121, 120, 120, 120, 120, 119, 119, 119, 118, 118, 118, 118,
  117, 117, 117, 116, 116, 116, 115, 115, 115, 114, 114, 114, 113, 113, 113, 112,
  112, 112, 111, 111, 111, 110, 110, 109, 109, 109, 108, 108, 107, 107, 106, 106,
  106, 105, 105, 104, 104, 103, 103, 102, 102, 102, 101, 101, 100, 100, 99, 99,
  98, 98, 97, 97, 96, 96, 95, 95, 94, 94, 93, 93, 92, 91, 91, 90,
  90, 89, 89, 88, 88, 87, 86, 86, 85, 85, 84, 84, 83, 82, 82, 81,
  81, 80, 79, 79, 78, 78, 77, 76, 76, 75, 74, 74, 73, 72, 72, 71,
  71, 70, 69, 69, 68, 67, 67, 66, 65, 65, 64, 63, 63, 62, 61, 61,
  60, 59, 58, 58, 57, 56, 56, 55, 54, 54, 53, 52, 51, 51, 50, 49,
  49, 48, 47, 46, 46, 45, 44, 44, 43, 42, 41, 41, 40, 39, 38, 38,
  37, 36, 35, 35, 34, 33, 32, 32, 31, 30, 29, 29, 28, 27, 26, 26,
  25, 24, 23, 22, 22, 21, 20, 19, 19, 18, 17, 16, 16, 15, 14, 13,
  12, 12, 11, 10, 9, 9, 8, 7, 6, 5, 5, 4, 3, 2, 2, 1,
  0, (-1 : Int), (-2 : Int), (-2 : Int), (-3 : Int), (-4 : Int), (-5 : Int), (-5 : Int), (-6 : Int), (-7 : Int), (-8 : Int), (-9 : Int), (-9 : Int), (-10 : Int), (-11 : Int), (-12 : Int),
  (-12 : Int), (-13 : Int), (-14 : Int), (-15 : Int), (-16 : Int), (-16 : Int), (-17 : Int), (-18 : Int), (-19 : Int), (-19 : Int), (-20 : Int), (-21 : Int), (-22 : Int), (-22 : Int), (-23 : Int), (-24 : Int),
  (-25 : Int), (-26 : Int), (-26 : Int), (-27 : Int), (-28 : Int), (-29 : Int), (-29 : Int), (-30 : Int), (-31 : Int), (-32 : Int), (-32 : Int), (-33 : Int), (-34 : Int), (-35 : Int), (-35 : Int), (-36 : Int),
  (-37 : Int), (-38 : Int), (-38 : Int), (-39 : Int), (-40 : Int), (-41 : Int), (-41 : Int), (-42 : Int), (-43 : Int), (-44 : Int), (-44 : Int), (-45 : Int), (-46 : Int), (-46 : Int), (-47 : Int), (-48 : Int),
  (-49 : Int), (-49 : Int), (-50 : Int), (-51 : Int), (-51 : Int), (-52 : Int), (-53 : Int), (-54 : Int), (-54 : Int), (-55 : Int), (-56 : Int), (-56 : Int), (-57 : Int), (-58 : Int), (-58 : Int), (-59 : Int),
  (-60 : Int), (-61 : Int), (-61 : Int), (-62 : Int), (-63 : Int), (-63 : Int), (-64 : Int), (-65 : Int), (-65 : Int), (-66 : Int), (-67 : Int), (-67 : Int), (-68 : Int), (-69 : Int), (-69 : Int), (-70 : Int),
  (-71 : Int), (-71 : Int), (-72 : Int), (-72 : Int), (-73 : Int), (-74 : Int), (-74 : Int), (-75 : Int), (-76 : Int), (-76 : Int), (-77 : Int), (-78 : Int), (-78 : Int), (-79 : Int), (-79 : Int), (-80 : Int),
  (-81 : Int), (-81 : Int), (-82 : Int), (-82 : Int), (-83 : Int), (-84 : Int), (-84 : Int), (-85 : Int), (-85 : Int), (-86 : Int), (-86 : Int), (-87 : Int), (-88 : Int), (-88 : Int), (-89 : Int), (-89 : Int),
  (-90 : Int), (-90 : Int), (-91 : Int), (-91 : Int), (-92 : Int), (-93 : Int), (-93 : Int), (-94 : Int), (-94 : Int), (-95 : Int), (-95 : Int), (-96 : Int), (-96 : Int), (-97 : Int), (-97 : Int), (-98 : Int),
  (-98 : Int), (-99 : Int), (-99 : Int), (-100 : Int), (-100 : Int), (-101 : Int), (-101 : Int), (-102 : Int), (-102 : Int), (-102 : Int), (-103 : Int), (-103 : Int), (-104 : Int), (-104 : Int), (-105 : Int), (-105 : Int),
  (-106 : Int), (-106 : Int), (-106 : Int), (-107 : Int), (-107 : Int), (-108 : Int), (-108 : Int), (-109 : Int), (-109 : Int), (-109 : Int), (-110 : Int), (-110 : Int), (-111 : Int), (-111 : Int), (-111 : Int), (-112 : Int),
  (-112 : Int), (-112 : Int), (-113 : Int), (-113 : Int), (-113 : Int), (-114 : Int), (-114 : Int), (-114 : Int), (-115 : Int), (-115 : Int), (-115 : Int), (-116 : Int), (-116 : Int), (-116 : Int), (-117 : Int), (-117 : Int),
  (-117 : Int), (-118 : Int), (-118 : Int), (-118 : Int), (-118 : Int), (-119 : Int), (-119 : Int), (-119 : Int), (-120 : Int), (-120 : Int), (-120 : Int), (-120 : Int), (-121 : Int), (-121 : Int), (-121 : Int), (-121 : Int),
  (-122 : Int), (-122 : Int), (-122 : Int), (-122 : Int), (-122 : Int), (-123 : Int), (-123 : Int), (-123 : Int), (-123 : Int), (-123 : Int), (-124 : Int), (-124 : Int), (-124 : Int), (-124 : Int), (-124 : Int), (-124 : Int),
  (-125 : Int), (-125 : Int), (-125 : Int), (-125 : Int), (-125 : Int), (-125 : Int), (-125 : Int), (-126 : Int), (-126 : Int), (-126 : Int), (-126 : Int), (-126 : Int), (-126 : Int), (-126 : Int), (-126 : Int), (-126 : Int),
  (-126 : Int), (-126 : Int), (-127 : Int), (-127 : Int), (-127 : Int), (-127 : Int), (-127 : Int), (-127 : Int), (-127 : Int), (-127 : Int), (-127 : Int), (-127 : Int), (-127 : Int), (-127 : Int), (-127 : Int), (-127 : Int),
  (-127 : Int), (-127 : Int), (-127 : Int), (-127 : Int), (-127 : Int), (-127 : Int), (-127 : Int), (-127 : Int), (-127 : Int), (-127 : Int), (-127 : Int), (-127 : Int), (-127 : Int), (-127 : Int), (-127 : Int), (-126 : Int),
  (-126 : Int), (-126 : Int), (-126 : Int), (-126 : Int), (-126 : Int), (-126 : Int), (-126 : Int), (-126 : Int), (-126 : Int), (-126 : Int), (-125 : Int), (-125 : Int), (-125 : Int), (-125 : Int), (-125 : Int), (-125 : Int),
  (-125 : Int), (-124 : Int), (-124 : Int), (-124 : Int), (-124 : Int), (-124 : Int), (-124 : Int), (-123 : Int), (-123 : Int), (-123 : Int), (-123 : Int), (-123 : Int), (-122 : Int), (-122 : Int), (-122 : Int), (-122 : Int),
  (-122 : Int), (-121 : Int), (-121 : Int), (-121 : Int), (-121 : Int), (-120 : Int), (-120 : Int), (-120 : Int), (-120 : Int), (-119 : Int), (-119 : Int), (-119 : Int), (-118 : Int), (-118 : Int), (-118 : Int), (-118 : Int),
  (-117 : Int), (-117 : Int), (-117 : Int), (-116 : Int), (-116 : Int), (-116 : Int), (-115 : Int), (-115 : Int), (-115 : Int), (-114 : Int), (-114 : Int), (-114 : Int), (-113 : Int), (-113 : Int), (-113 : Int), (-112 : Int),
  (-112 : Int), (-112 : Int), (-111 : Int), (-111 : Int), (-111 : Int), (-110 : Int), (-110 : Int), (-109 : Int), (-109 : Int), (-109 : Int), (-108 : Int), (-108 : Int), (-107 : Int), (-107 : Int), (-106 : Int), (-106 : Int),
  (-106 : Int), (-105 : Int), (-105 : Int), (-104 : Int), (-104 : Int), (-103 : Int), (-103 : Int), (-102 : Int), (-102 : Int), (-102 : Int), (-101 : Int), (-101 : Int), (-100 : Int), (-100 : Int), (-99 : Int), (-99 : Int),
  (-98 : Int), (-98 : Int), (-97 : Int), (-97 : Int), (-96 : Int), (-96 : Int), (-95 : Int), (-95 : Int), (-94 : Int), (-94 : Int), (-93 : Int), (-93 : Int), (-92 : Int), (-91 : Int), (-91 : Int), (-90 : Int),
  (-90 : Int), (-89 : Int), (-89 : Int), (-88 : Int), (-88 : Int), (-87 : Int), (-86 : Int), (-86 : Int), (-85 : Int), (-85 : Int), (-84 : Int), (-84 : Int), (-83 : Int), (-82 : Int), (-82 : Int), (-81 : Int),
  (-81 : Int), (-80 : Int), (-79 : Int), (-79 : Int), (-78 : Int), (-78 : Int), (-77 : Int), (-76 : Int), (-76 : Int), (-75 : Int), (-74 : Int), (-74 : Int), (-73 : Int), (-72 : Int), (-72 : Int), (-71 : Int),
  (-71 : Int), (-70 : Int), (-69 : Int), (-69 : Int), (-68 : Int), (-67 : Int), (-67 : Int), (-66 : Int), (-65 : Int), (-65 : Int), (-64 : Int), (-63 : Int), (-63 : Int), (-62 : Int), (-61 : Int), (-61 : Int),
  (-60 : Int), (-59 : Int), (-58 : Int), (-58 : Int), (-57 : Int), (-56 : Int), (-56 : Int), (-55 : Int), (-54 : Int), (-54 : Int), (-53 : Int), (-52 : Int), (-51 : Int), (-51 : Int), (-50 : Int), (-49 : Int),
  (-49 : Int), (-48 : Int), (-47 : Int), (-46 : Int), (-46 : Int), (-45 : Int), (-44 : Int), (-44 : Int), (-43 : Int), (-42 : Int), (-41 : Int), (-41 : Int), (-40 : Int), (-39 : Int), (-38 : Int), (-38 : Int),
  (-37 : Int), (-36 : Int), (-35 : Int), (-35 : Int), (-34 : Int), (-33 : Int), (-32 : Int), (-32 : Int), (-31 : Int), (-30 : Int), (-29 : Int), (-29 : Int), (-28 : Int), (-27 : Int), (-26 : Int), (-26 : Int),
  (-25 : Int), (-24 : Int), (-23 : Int), (-22 : Int), (-22 : Int), (-21 : Int), (-20 : Int), (-19 : Int), (-19 : Int), (-18 : Int), (-17 : Int), (-16 : Int), (-16 : Int), (-15 : Int), (-14 : Int), (-13 : Int),
  (-12 : Int), (-12 : Int), (-11 : Int), (-10 : Int), (-9 : Int), (-9 : Int), (-8 : Int), (-7 : Int), (-6 : Int), (-5 : Int), (-5 : Int), (-4 : Int), (-3 : Int), (-2 : Int), (-2 : Int), (-1 : Int)]

/-- Table read `sintab[i]`. -/
def sintab_at (i : Nat) : Int := sintab.getD i 0

/-- The index expression `(x & 0x03FF0000) >> 16` used at every table lookup. -/
def sin_index (x : Nat) : Nat := (x &&& 0x03FF0000) >>> 16

/-- Conversion of an integer value to `uint32_t` (reduction modulo `2^32`). -/
def to_u32 (x : Int) : Nat := (x % 4294967296).toNat

/-- Conversion of an integer value to `int32_t` (two's complement wrap). -/
def to_i32 (x : Int) : Int := (x + 2147483648) % 4294967296 - 2147483648

/-! ## Messages and shared memory -/

/-- Messages pushed to `shared_memory.application_queue` by the two transmit
synthesizers: `TXDoneMessage` (field `n`) and `RetuneMessage` (field `freq`). -/
inductive Message where
  | TXDone (n : Int)
  | Retune (freq : Int)
  deriving DecidableEq, Repr

/-- One entry of `shared_memory.jammer_ranges[16]`; the jammer reads `active`,
`center` and `width` (`duration` appears only in a comment of the source). -/
structure JammerRange where
  active : Bool
  center : Int
  width : Int
  duration : Nat

/-- The fields of `shared_memory` used by the transmit synthesizers. The record
is declared in `portapack_shared_memory.hpp`, which is not part of the source
file; the fields are the ones `main.cpp` reads and writes. `lcrdata` and
`jammer_ranges` are arrays, read by index; an element of `lcrdata` is read into
the `char` member `cur_byte`, so it is reduced modulo 256 at the read. -/
structure SharedMemory where
  lcrdata : Nat → Nat
  afsk_samples_per_bit : Nat
  afsk_phase_inc_mark : Nat
  afsk_phase_inc_space : Nat
  afsk_repeat : Nat
  afsk_fmmod : Int
  afsk_transmit_done : Bool
  jammer_ranges : Nat → JammerRange
  application_queue : List Message

/-! ## `LCRFSKProcessor` -/

/-- Member `TXDoneMessage message`. -/
structure TXDoneMessage where
  n : Int
  deriving DecidableEq, Repr

/-- Data members of `class LCRFSKProcessor` (`uint8_t s, bit_pos, byte_pos,
cur_bit`, `char cur_byte` (unsigned on the ARM target), `uint16_t gbyte`,
`uint32_t sample_count, aphase, phase, sphase`, `int32_t sample, sig, frq`,
`int8_t re, im`). -/
structure LCRFSKProcessor where
  re : Int
  im : Int
  s : Nat
  bit_pos : Nat
  byte_pos : Nat
  cur_byte : Nat
  gbyte : Nat
  cur_bit : Nat
  sample_count : Nat
  aphase : Nat
  phase : Nat
  sphase : Nat
  sample : Int
  sig : Int
  frq : Int
  message : TXDoneMessage

namespace LCRFSKProcessor

/-- The object built by `new LCRFSKProcessor()`: value-initialisation zeroes
every member, and the default member initialisers are all `0`. -/
def fresh : LCRFSKProcessor :=
  { re := 0, im := 0, s := 0, bit_pos := 0, byte_pos := 0, cur_byte := 0,
    gbyte := 0, cur_bit := 0, sample_count := 0, aphase := 0, phase := 0,
    sphase := 0, sample := 0, sig := 0, frq := 0, message := { n := 0 } }

/-- Source lines 418-433, the tail of the bit-boundary block: frame the current
byte into `gbyte` (`gbyte = 0; gbyte = cur_byte << 1; gbyte |= 1;`), pick the
bit (`cur_bit = (gbyte >> (9-bit_pos)) & 1`), advance the cursors
(`if (bit_pos == 9) { bit_pos = 0; byte_pos++; } else { bit_pos++; }`) and
clear `sample_count`. The shift count `9 - bit_pos` is only defined in C++ for
`bit_pos <= 9`, which the cursor update maintains. -/
def frame_bit (p : LCRFSKProcessor) : LCRFSKProcessor :=
  let gbyte := ((p.cur_byte <<< 1) % 65536) ||| 1
  let cur_bit := (gbyte >>> (9 - p.bit_pos)) &&& 1
  if p.bit_pos = 9 then
    { p with gbyte := gbyte, cur_bit := cur_bit, bit_pos := 0,
             byte_pos := (p.byte_pos + 1) % 256, sample_count := 0 }
  else
    { p with gbyte := gbyte, cur_bit := cur_bit, bit_pos := (p.bit_pos + 1) % 256,
             sample_count := 0 }

/-- The body of `if (sample_count >= shared_memory.afsk_samples_per_bit)`
(source lines 400-433): fetch the byte unless transmission is done
(`if (afsk_transmit_done == false) cur_byte = lcrdata[byte_pos];`), handle the
terminator (`if (!cur_byte) { if (afsk_repeat) {...} else {...} }`), then
`frame_bit`. -/
def bit_boundary (w : SharedMemory × LCRFSKProcessor) : SharedMemory × LCRFSKProcessor :=
  let sm := w.1
  let p := w.2
  let cur_byte := if sm.afsk_transmit_done = false then sm.lcrdata p.byte_pos % 256
    else p.cur_byte
  if cur_byte = 0 then
    if sm.afsk_repeat ≠ 0 then
      -- afsk_repeat--; bit_pos = 0; byte_pos = 0; cur_byte = lcrdata[0];
      -- message.n = afsk_repeat; application_queue.push(message);
      ({ sm with afsk_repeat := sm.afsk_repeat - 1,
                 application_queue :=
                   sm.application_queue ++ [Message.TXDone ((sm.afsk_repeat - 1 : Nat) : Int)] },
       frame_bit { p with bit_pos := 0, byte_pos := 0, cur_byte := sm.lcrdata 0 % 256,
                          message := { n := ((sm.afsk_repeat - 1 : Nat) : Int) } })
    else
      -- message.n = 0; afsk_transmit_done = true; application_queue.push(message);
      -- cur_byte = 0;
      ({ sm with afsk_transmit_done := true,
                 application_queue := sm.application_queue ++ [Message.TXDone 0] },
       frame_bit { p with message := { n := 0 }, cur_byte := 0 })
  else (sm, frame_bit { p with cur_byte := cur_byte })

/-- The body of `if (s >= 9)` (source lines 397-442): one symbol tick. Either a
bit boundary or `sample_count++`, then the tone accumulator advances by the
mark or the space increment according to `cur_bit`, and the tone is looked
up. -/
def symbol_tick (w : SharedMemory × LCRFSKProcessor) : SharedMemory × LCRFSKProcessor :=
  let w1 : SharedMemory × LCRFSKProcessor :=
    if w.2.sample_count ≥ w.1.afsk_samples_per_bit then bit_boundary (w.1, { w.2 with s := 0 })
    else (w.1, { w.2 with s := 0, sample_count := (w.2.sample_count + 1) % 4294967296 })
  let aphase := if w1.2.cur_bit ≠ 0 then
      (w1.2.aphase + w1.1.afsk_phase_inc_mark) % 4294967296
    else (w1.2.aphase + w1.1.afsk_phase_inc_space) % 4294967296
  (w1.1, { w1.2 with aphase := aphase, sample := sintab_at (sin_index aphase) })

/-- The FM stage of the loop body (source lines 447-456):
`sample = sintab[(aphase & 0x03FF0000)>>16]; frq = sample * afsk_fmmod;
phase = phase + frq; sphase = phase + (256<<16);
re = sintab[(sphase & 0x03FF0000)>>16]; im = sintab[(phase & 0x03FF0000)>>16];` -/
def fm_output (sm : SharedMemory) (p : LCRFSKProcessor) : LCRFSKProcessor :=
  let sample := sintab_at (sin_index p.aphase)
  let frq := to_i32 (sample * sm.afsk_fmmod)
  let phase := to_u32 ((p.phase : Int) + frq)
  let sphase := ((256 <<< 16) + phase) % 4294967296
  { p with sample := sample, frq := frq, phase := phase, sphase := sphase,
           re := sintab_at (sin_index sphase), im := sintab_at (sin_index phase) }

/-- One iteration of the `for` loop of `LCRFSKProcessor::execute`; the sample
written to `buffer.p[i]` is `(re, im)` of the resulting state. -/
def execute_sample (w : SharedMemory × LCRFSKProcessor) : SharedMemory × LCRFSKProcessor :=
  let w1 : SharedMemory × LCRFSKProcessor :=
    if w.2.s ≥ 9 then symbol_tick w
    else (w.1, { w.2 with s := (w.2.s + 1) % 256 })
  (w1.1, fm_output w1.1 w1.2)

/-- Method `LCRFSKProcessor::execute(buffer)` with `buffer.count = count`:
`count` iterations of the loop body. Successive calls compose, so the state
after any number of processed samples is `execute n` of the initial one. -/
def execute : Nat → SharedMemory × LCRFSKProcessor → SharedMemory × LCRFSKProcessor
  | 0, w => w
  | n + 1, w => execute_sample (execute n w)

/-- Samples written to the buffer by `execute count`, in index order. -/
def execute_buffer (count : Nat) (w : SharedMemory × LCRFSKProcessor) : List (Int × Int) :=
  (List.range count).map (fun i => ((execute (i + 1) w).2.re, (execute (i + 1) w).2.im))

/-- The state after `j` successive bit boundaries. -/
def bit_boundaries : Nat → SharedMemory × LCRFSKProcessor → SharedMemory × LCRFSKProcessor
  | 0, w => w
  | j + 1, w => bit_boundary (bit_boundaries j w)

/-- The part of the state that the bit framing reads and writes: the timing
counters and the synthesizer members are reset to zero. -/
def framing (w : SharedMemory × LCRFSKProcessor) : SharedMemory × LCRFSKProcessor :=
  (w.1, { w.2 with s := 0, sample_count := 0, aphase := 0, phase := 0, sphase := 0,
                   sample := 0, frq := 0, re := 0, im := 0 })

/-- The guard `if (s >= 9)` of `execute`, read in the state `w` in which a
sample starts: the sample is a symbol tick. -/
def tick_due (w : SharedMemory × LCRFSKProcessor) : Bool :=
  decide (w.2.s ≥ 9)

/-- The guards `if (s >= 9)` and, inside it,
`if (sample_count >= shared_memory.afsk_samples_per_bit)`, read in the state `w`
in which a sample starts: the sample runs the bit-boundary block. -/
def boundary_due (w : SharedMemory × LCRFSKProcessor) : Bool :=
  tick_due w && decide (w.2.sample_count ≥ w.1.afsk_samples_per_bit)

/-- The 10-bit frame of a byte `b` in the words of the specification: start bit
`0`, the eight data bits from bit 7 down to bit 0, stop bit `1`. The code
selects these bits from the frame word `(b << 1) | 1`. -/
def frame_bits (b : Nat) : List Nat :=
  [0, (b >>> 7) % 2, (b >>> 6) % 2, (b >>> 5) % 2, (b >>> 4) % 2, (b >>> 3) % 2,
   (b >>> 2) % 2, (b >>> 1) % 2, b % 2, 1]

end LCRFSKProcessor

/-- A shared memory holding the LCR data buffer `data` (zero beyond its end),
the given framing parameters, and an empty application queue. -/
def lcr_shared (data : List Nat) (samples_per_bit mark space : Nat) (fmmod : Int)
    (rep : Nat) : SharedMemory :=
  { lcrdata := fun i => data.getD i 0,
    afsk_samples_per_bit := samples_per_bit,
    afsk_phase_inc_mark := mark,
    afsk_phase_inc_space := space,
    afsk_repeat := rep,
    afsk_fmmod := fmmod,
    afsk_transmit_done := false,
    jammer_ranges := fun _ => { active := false, center := 0, width := 0, duration := 0 },
    application_queue := [] }

/-- A shared memory whose data buffer holds 256 bytes `0x41` at indices
`0..255` and the zero terminator at index 256, with `afsk_repeat = 0` and one
symbol tick per bit. -/
def lcr_shared_256 : SharedMemory :=
  lcr_shared (List.replicate 256 0x41 ++ [0]) 0 353205 647542 500 0

/-! ## `JammerProcessor` -/

/-- Member `RetuneMessage message`. -/
structure RetuneMessage where
  freq : Int
  deriving DecidableEq, Repr

/-- Data members of `class JammerProcessor` (`int32_t lfsr32 = 0xABCDE`,
`uint32_t s`, `int8_t r, ir, re, im`, `int64_t jammer_bw, jammer_center`,
`int feedback`, `int32_t lfsr`, `uint32_t sample_count, aphase, phase, sphase`,
`int32_t sample, frq`). The range index `ir` is `0` at construction and the
advance loop keeps it in `0..15`, so it is a natural number here. -/
structure JammerProcessor where
  lfsr32 : Int
  s : Nat
  r : Int
  ir : Nat
  re : Int
  im : Int
  jammer_bw : Int
  jammer_center : Int
  feedback : Int
  lfsr : Int
  sample_count : Nat
  aphase : Nat
  phase : Nat
  sphase : Nat
  sample : Int
  frq : Int
  message : RetuneMessage

namespace JammerProcessor

/-- The object built by `new JammerProcessor()`: every member zero except
`lfsr32 = 0xABCDE`. -/
def fresh : JammerProcessor :=
  { lfsr32 := 0xABCDE, s := 0, r := 0, ir := 0, re := 0, im := 0, jammer_bw := 0,
    jammer_center := 0, feedback := 0, lfsr := 0, sample_count := 0, aphase := 0,
    phase := 0, sphase := 0, sample := 0, frq := 0, message := { freq := 0 } }

/-- The loop `for (;;) { ir++; if (ir > 15) ir = 0; if (active[ir]) break; }`
run for at most `fuel` iterations: `some ir` is the index at the `break`,
`none` means the loop is still running after `fuel` iterations. -/
def next_range (active : Nat → Bool) : Nat → Nat → Option Nat
  | 0, _ => none
  | fuel + 1, ir =>
    let ir := ir + 1
    let ir := if ir > 15 then 0 else ir
    if active ir = true then some ir else next_range active fuel ir

/-- The body of `if (s >= 10000)` (source lines 546-555): restart the duration
counter, advance to the next active range, load its width
(`jammer_bw = jammer_ranges[ir].width`), push a Retune message with its center
(`message.freq = jammer_ranges[ir].center; application_queue.push(message)`).
After the first iteration the loop only visits `0..15`, so sixteen iterations
decide it; `none` is a loop that never exits. -/
def duration_expiry (w : SharedMemory × JammerProcessor) :
    Option (SharedMemory × JammerProcessor) :=
  let sm := w.1
  let p := w.2
  match next_range (fun i => (sm.jammer_ranges i).active) 16 p.ir with
  | none => none
  | some ir =>
    let range := sm.jammer_ranges ir
    some ({ sm with application_queue := sm.application_queue ++ [Message.Retune range.center] },
          { p with s := 0, ir := ir, jammer_bw := range.width,
                   message := { freq := range.center } })

/-- The sweep and FM stages of the loop body (source lines 572-592):
`if (r >= 70) { aphase += ((aphase>>4) ^ 0x4573) << 14; r = 0; } else r++;`
`aphase += 35320; sample = sintab[(aphase & 0x03FF0000)>>16];`
`frq = sample * jammer_bw; phase = phase + frq; sphase = phase + (256<<16);`
`re = sintab[(sphase & 0x03FF0000)>>16]; im = sintab[(phase & 0x03FF0000)>>16];` -/
def sweep_output (p : JammerProcessor) : JammerProcessor :=
  let aphase1 := if p.r ≥ 70 then
      (p.aphase + (((p.aphase >>> 4) ^^^ 0x4573) <<< 14) % 4294967296) % 4294967296
    else p.aphase
  let r := if p.r ≥ 70 then 0 else p.r + 1
  let aphase := (35320 + aphase1) % 4294967296
  let sample := sintab_at (sin_index aphase)
  let frq := to_i32 (sample * p.jammer_bw)
  let phase := to_u32 ((p.phase : Int) + frq)
  let sphase := ((256 <<< 16) + phase) % 4294967296
  { p with r := r, aphase := aphase, sample := sample, frq := frq, phase := phase,
           sphase := sphase, re := sintab_at (sin_index sphase),
           im := sintab_at (sin_index phase) }

/-- One iteration of the `for` loop of `JammerProcessor::execute`; `none` when
the range-advance loop never exits. -/
def execute_sample (w : SharedMemory × JammerProcessor) :
    Option (SharedMemory × JammerProcessor) :=
  let w1 : Option (SharedMemory × JammerProcessor) :=
    if w.2.s ≥ 10000 then duration_expiry w
    else some (w.1, { w.2 with s := (w.2.s + 1) % 4294967296 })
  match w1 with
  | none => none
  | some w1 => some (w1.1, sweep_output w1.2)

/-- Method `JammerProcessor::execute(buffer)` with `buffer.count = count`. -/
def execute : Nat → SharedMemory × JammerProcessor → Option (SharedMemory × JammerProcessor)
  | 0, w => some w
  | n + 1, w =>
    match execute n w with
    | none => none
    | some w1 => execute_sample w1

end JammerProcessor

/-- A shared memory holding the jammer range table `ranges` and an empty
application queue. -/
def jammer_shared (ranges : Nat → JammerRange) : SharedMemory :=
  { lcrdata := fun _ => 0,
    afsk_samples_per_bit := 0,
    afsk_phase_inc_mark := 0,
    afsk_phase_inc_space := 0,
    afsk_repeat := 0,
    afsk_fmmod := 0,
    afsk_transmit_done := false,
    jammer_ranges := ranges,
    application_queue := [] }

/-- A range table in which only the ranges 0, 3 and 7 are active, with pairwise
different centers. -/
def ranges_0_3_7 : Nat → JammerRange :=
  fun i => { active := decide (i = 0 ∨ i = 3 ∨ i = 7), center := 433000000 + 1000000 * i,
             width := 65536, duration := 0 }

/-! ## The `BasebandConfiguration` message handler -/

/-- Type `baseband::Direction`. -/
inductive Direction where
  | Receive
  | Transmit
  deriving DecidableEq, Repr

/-- The processor classes the handler can construct. -/
inductive ProcessorKind where
  | NarrowbandAMAudio
  | NarrowbandFMAudio
  | WidebandFMAudio
  | AISProcessor
  | WidebandSpectrum
  | TPMSProcessor
  | LCRFSKProcessor
  | JammerProcessor
  deriving DecidableEq, Repr

/-- A heap object created by `new`: its class and an allocation number that
tells two instances of the same class apart. -/
structure ProcessorRef where
  kind : ProcessorKind
  id : Nat
  deriving DecidableEq, Repr

/-- Modelled from the spec: the declaration of `BasebandConfiguration` is not in
the source file; the spec gives it as `{ mode: integer, sampling_rate: integer,
... }`. `rest` stands for the remaining fields. -/
structure BasebandConfiguration where
  mode : Int
  sampling_rate : Nat
  rest : List Nat
  deriving DecidableEq, Repr

/-- Calls and pointer operations of the handler, in program order. -/
inductive Effect where
  | tx_mute
  | dma_disable
  | rssi_stop
  | rssi_start
  | detach
  | destroy (p : ProcessorRef)
  | construct (p : ProcessorRef)
  | install (p : ProcessorRef)
  | dma_enable (d : Direction)
  | dma_configure (d : Direction)
  deriving DecidableEq, Repr

/-- The state the handler reads and writes: the global `direction`, the members
`baseband_processor` and `baseband_configuration` of `baseband_thread`, the
RSSI sampling flag (set by `rf::rssi::start`, cleared by `rf::rssi::stop`), the
allocation counter, and the log of effects. -/
structure HandlerState where
  direction : Direction
  baseband_processor : Option ProcessorRef
  baseband_configuration : BasebandConfiguration
  rssi_active : Bool
  next_id : Nat
  trace : List Effect
  deriving DecidableEq, Repr

namespace HandlerState

/-- Append one effect to the log. -/
def emit (st : HandlerState) (e : Effect) : HandlerState :=
  { st with trace := st.trace ++ [e] }

/-- Call `rf::rssi::start()`. -/
def rssi_start (st : HandlerState) : HandlerState :=
  { st.emit Effect.rssi_start with rssi_active := true }

/-- Call `rf::rssi::stop()`. -/
def rssi_stop (st : HandlerState) : HandlerState :=
  { st.emit Effect.rssi_stop with rssi_active := false }

/-- Statement `baseband_thread.baseband_processor = new K();`. -/
def new_processor (st : HandlerState) (k : ProcessorKind) : HandlerState :=
  let p : ProcessorRef := { kind := k, id := st.next_id }
  let st : HandlerState := { st.emit (Effect.construct p) with next_id := st.next_id + 1 }
  { st.emit (Effect.install p) with baseband_processor := some p }

/-- The `switch(message->configuration.mode)` of the handler (source lines
765-817). -/
def switch_mode (st : HandlerState) (mode : Int) : HandlerState :=
  if mode = 0 then
    new_processor { st with direction := Direction.Receive } ProcessorKind.NarrowbandAMAudio
  else if mode = 1 then
    new_processor { st with direction := Direction.Receive } ProcessorKind.NarrowbandFMAudio
  else if mode = 2 then
    new_processor st ProcessorKind.WidebandFMAudio
  else if mode = 3 then
    new_processor { st with direction := Direction.Receive } ProcessorKind.AISProcessor
  else if mode = 4 then
    new_processor { st with direction := Direction.Receive } ProcessorKind.WidebandSpectrum
  else if mode = 5 then
    new_processor { st with direction := Direction.Receive } ProcessorKind.TPMSProcessor
  else if mode = 16 then
    new_processor { st with direction := Direction.Transmit } ProcessorKind.LCRFSKProcessor
  else if mode = 18 then
    new_processor { st with direction := Direction.Transmit } ProcessorKind.JammerProcessor
  else st

/-- The body of `if (message->configuration.mode != baseband_configuration.mode)`
(source lines 754-825). -/
def change_mode (st : HandlerState) (mode : Int) : HandlerState :=
  -- if (baseband_processor) { tx_mute(); dma::disable(); rssi::stop(); }
  let st : HandlerState :=
    if st.baseband_processor.isSome then
      ((st.emit Effect.tx_mute).emit Effect.dma_disable).rssi_stop
    else st
  -- auto old_p = baseband_processor; baseband_processor = nullptr; delete old_p;
  let old_p := st.baseband_processor
  let st : HandlerState := { st.emit Effect.detach with baseband_processor := none }
  let st : HandlerState :=
    match old_p with
    | some p => st.emit (Effect.destroy p)
    | none => st
  let st : HandlerState := switch_mode st mode
  -- if (baseband_processor) { if (Receive) rssi::start(); dma::enable(direction); rssi::stop(); }
  if st.baseband_processor.isSome then
    let st : HandlerState :=
      if st.direction = Direction.Receive then st.rssi_start else st
    let st : HandlerState := st.emit (Effect.dma_enable st.direction)
    st.rssi_stop
  else st

/-- The handler registered for `Message::ID::BasebandConfiguration` (source
lines 750-834), applied to the message's `configuration`. -/
def handler (st : HandlerState) (configuration : BasebandConfiguration) : HandlerState :=
  let st : HandlerState :=
    if configuration.mode ≠ st.baseband_configuration.mode then
      change_mode st configuration.mode
    else st
  let st : HandlerState := st.emit (Effect.dma_configure st.direction)
  { st with baseband_configuration := configuration }

end HandlerState

/-- The mode values that have a `case` in the handler's `switch`. -/
def supported_modes : List Int := [0, 1, 2, 3, 4, 5, 16, 18]

/-- State of the handler at start-up: no processor, `direction` at its static
initial value `Receive`, and a stored mode that no `case` handles. -/
def boot_state : HandlerState :=
  { direction := Direction.Receive, baseband_processor := none,
    baseband_configuration := { mode := -1, sampling_rate := 0, rest := [] },
    rssi_active := false, next_id := 0, trace := [] }

/-- The class the handler's `switch` constructs for a mode, none when no `case`
handles the mode: the switch is run on the start-up state and the class of the
processor it installed is read off. -/
def selected_kind (mode : Int) : Option ProcessorKind :=
  (HandlerState.switch_mode boot_state mode).baseband_processor.map ProcessorRef.kind

/-- State of the handler while the LCR/FSK transmitter (mode 16) is running. -/
def lcr_running : HandlerState :=
  HandlerState.handler boot_state { mode := 16, sampling_rate := 2280000, rest := [] }

/-! ## Phase accumulation -/

/-- One accumulation on a `uint32_t` phase accumulator, `acc += k` with wrap
modulo `2^32` (the statements `aphase += ...` and `phase = (phase + frq)`); the
increment may be negative, as `frq` is. -/
def accumulate (k : Int) (acc : Nat) : Nat := to_u32 ((acc : Int) + k)

/-- The accumulator after `n` accumulations of the same increment `k`. -/
def accumulate_n (k : Int) : Nat → Nat → Nat
  | 0, acc => acc
  | n + 1, acc => accumulate k (accumulate_n k n acc)

/-! ## `EventDispatcher` -/

/-- A message popped from `shared_memory.baseband_queue`, by its `Message::ID`:
the two IDs for which `main` registers a handler, and any other ID. -/
inductive InMessage where
  | BasebandConfiguration (configuration : BasebandConfiguration)
  | Shutdown
  | Other (id : Nat)
  deriving DecidableEq, Repr

/-- What the dispatcher does, in program order: a message popped from the queue
and passed to `message_map.send`, and a call of `update_spectrum` on a
processor. -/
inductive DispatchEvent where
  | send (m : InMessage)
  | update_spectrum (p : ProcessorRef)
  deriving DecidableEq, Repr

/-- The state `EventDispatcher::dispatch` works on: the member `is_running`, the
inbound mailbox `shared_memory.baseband_queue` (front of the queue first), the
state the registered handlers act on, and the log of dispatcher events. -/
structure EventDispatcher where
  is_running : Bool
  baseband_queue : List InMessage
  handlers : HandlerState
  log : List DispatchEvent
  deriving DecidableEq, Repr

namespace EventDispatcher

/-- Modelled from the spec: `MessageHandlerMap::send` is declared outside the
source file; the spec says it looks up the handler registered for the message's
discriminant and invokes it, and ignores a discriminant without a handler. The
registered handlers are the two of `main`: the configuration handler, and
`request_stop()` (`is_running = false`) for `Shutdown`. -/
def send (d : EventDispatcher) (m : InMessage) : EventDispatcher :=
  let d : EventDispatcher := { d with log := d.log ++ [DispatchEvent.send m] }
  match m with
  | InMessage.BasebandConfiguration c => { d with handlers := d.handlers.handler c }
  | InMessage.Shutdown => { d with is_running := false }
  | InMessage.Other _ => d

/-- The loop `while (message = baseband_queue.pop(...)) { message_map.send(message); }`
over the messages `q` still in the queue: each iteration pops the front message
and sends it; the loop ends when `pop` finds the queue empty. -/
def drain : List InMessage → EventDispatcher → EventDispatcher
  | [], d => { d with baseband_queue := [] }
  | m :: rest, d => drain rest (send { d with baseband_queue := rest } m)

/-- Method `EventDispatcher::handle_baseband_queue`. -/
def handle_baseband_queue (d : EventDispatcher) : EventDispatcher :=
  drain d.baseband_queue d

/-- Method `EventDispatcher::handle_spectrum`:
`if (baseband_processor) baseband_processor->update_spectrum();`. -/
def handle_spectrum (d : EventDispatcher) : EventDispatcher :=
  match d.handlers.baseband_processor with
  | some p => { d with log := d.log ++ [DispatchEvent.update_spectrum p] }
  | none => d

/-- Method `EventDispatcher::dispatch(events)`. The masks `EVT_MASK_BASEBAND`
and `EVT_MASK_SPECTRUM` are defined outside the source file and are
parameters. -/
def dispatch (EVT_MASK_BASEBAND EVT_MASK_SPECTRUM : Nat) (d : EventDispatcher)
    (events : Nat) : EventDispatcher :=
  let d : EventDispatcher :=
    if events &&& EVT_MASK_BASEBAND ≠ 0 then handle_baseband_queue d else d
  if events &&& EVT_MASK_SPECTRUM ≠ 0 then handle_spectrum d else d

end EventDispatcher

/-! ## Hot swap: `BasebandThread::run` against the configuration handler -/

namespace HandlerState

end HandlerState

namespace HotSwap

end HotSwap

end Baseband

/-! # Theorems -/

namespace Baseband

/-! ## Phase-to-index arithmetic -/

theorem sin_index_eq (x : Nat) : sin_index x = (x >>> 16) % 1024 := by
  have hm : (0x03FF0000 : Nat) = (2 ^ 10 - 1) <<< 16 := by decide
  have hk : (1024 : Nat) = 2 ^ 10 := by decide
  unfold sin_index
  rw [hm, hk]
  apply Nat.eq_of_testBit_eq
  intro i
  simp only [Nat.testBit_shiftRight, Nat.testBit_and, Nat.testBit_shiftLeft,
    Nat.testBit_two_pow_sub_one, Nat.testBit_mod_two_pow]
  by_cases h : i < 10 <;> simp [h, Bool.and_comm]

/-! ## Configuration handler -/

namespace HandlerState

theorem handler_same_mode (st : HandlerState) (c : BasebandConfiguration)
    (h : c.mode = st.baseband_configuration.mode) :
    handler st c =
      { st with trace := st.trace ++ [Effect.dma_configure st.direction],
                baseband_configuration := c } := by
  simp [handler, h, emit]

theorem switch_mode_unknown (st : HandlerState) (mode : Int)
    (h : mode ∉ supported_modes) : switch_mode st mode = st := by
  simp only [supported_modes, List.mem_cons, List.mem_singleton, not_or, List.not_mem_nil,
    or_false] at h
  obtain ⟨h0, h1, h2, h3, h4, h5, h16, h18⟩ := h
  simp [switch_mode, h0, h1, h2, h3, h4, h5, h16, h18]

end HandlerState

end Baseband

namespace Baseband

namespace HandlerState

/-- C3 (failing input): while mode 16 is running (`direction = Transmit`), a
configuration message with mode 2 replaces the processor by a
`WidebandFMAudio` receiver, but `case 2` does not assign `direction`, so it is
still `Transmit` afterwards and the DMA is enabled for transmit. -/
theorem C3_mode2_leaves_direction_transmit :
    lcr_running.direction = Direction.Transmit ∧
    (handler lcr_running { mode := 2, sampling_rate := 3072000, rest := [] }).baseband_processor
      = some { kind := ProcessorKind.WidebandFMAudio, id := 1 } ∧
    (handler lcr_running { mode := 2, sampling_rate := 3072000, rest := [] }).direction
      = Direction.Transmit ∧
    Effect.dma_enable Direction.Transmit ∈
      (handler lcr_running { mode := 2, sampling_rate := 3072000, rest := [] }).trace := by
  decide

/-- C4 (failing input): from the start-up state a configuration message with
mode 1 constructs a `NarrowbandFMAudio` processor with `direction = Receive`;
`rf::rssi::start()` is called, but the unconditional `rf::rssi::stop()` after
`dma::enable` clears the flag again, so RSSI sampling is off on return. -/
theorem C4_rssi_off_after_receive_mode :
    (handler boot_state { mode := 1, sampling_rate := 3072000, rest := [] }).baseband_processor
      = some { kind := ProcessorKind.NarrowbandFMAudio, id := 0 } ∧
    (handler boot_state { mode := 1, sampling_rate := 3072000, rest := [] }).direction
      = Direction.Receive ∧
    (handler boot_state { mode := 1, sampling_rate := 3072000, rest := [] }).rssi_active = false ∧
    (handler boot_state { mode := 1, sampling_rate := 3072000, rest := [] }).trace
      = [Effect.detach,
         Effect.construct { kind := ProcessorKind.NarrowbandFMAudio, id := 0 },
         Effect.install { kind := ProcessorKind.NarrowbandFMAudio, id := 0 },
         Effect.rssi_start, Effect.dma_enable Direction.Receive, Effect.rssi_stop,
         Effect.dma_configure Direction.Receive] := by
  decide

/-- C8: a configuration message whose mode equals the stored mode changes only
the effect log, by one `dma::configure` with the unchanged direction, and the
stored configuration, which becomes the message's; processor reference,
direction, RSSI flag and allocation counter are untouched, and no mute, DMA
disable/enable or RSSI start/stop is logged. Hence after any sequence of such
messages the processor is the original instance, the log has grown by one
`dma::configure` per message, and the stored configuration is the last
message's (the original one for the empty sequence). -/
theorem C8_same_mode_keeps_processor (st : HandlerState) (msgs : List BasebandConfiguration)
    (h : ∀ c ∈ msgs, c.mode = st.baseband_configuration.mode) :
    (∀ c : BasebandConfiguration, c.mode = st.baseband_configuration.mode →
      handler st c =
        { st with trace := st.trace ++ [Effect.dma_configure st.direction],
                  baseband_configuration := c }) ∧
    (msgs.foldl handler st).baseband_processor = st.baseband_processor ∧
    (msgs.foldl handler st).direction = st.direction ∧
    (msgs.foldl handler st).rssi_active = st.rssi_active ∧
    (msgs.foldl handler st).next_id = st.next_id ∧
    (msgs.foldl handler st).trace
      = st.trace ++ msgs.map (fun _ => Effect.dma_configure st.direction) ∧
    (msgs.foldl handler st).baseband_configuration
      = msgs.getLast?.getD st.baseband_configuration := by
  refine ⟨fun c hc => handler_same_mode st c hc, ?_⟩
  induction msgs generalizing st with
  | nil => simp
  | cons c rest ih =>
    have hc : c.mode = st.baseband_configuration.mode := h c (List.mem_cons_self _ _)
    have hrest : ∀ d ∈ rest, d.mode = (handler st c).baseband_configuration.mode := by
      intro d hd
      rw [handler_same_mode st c hc]
      exact (h d (List.mem_cons_of_mem _ hd)).trans hc.symm
    have := ih (handler st c) hrest
    rw [handler_same_mode st c hc] at this
    simp only [List.foldl_cons, handler_same_mode st c hc]
    obtain ⟨h1, h2, h3, h4, h5, h6⟩ := this
    refine ⟨h1, h2, h3, h4, ?_, ?_⟩
    · simp [h5]
    · rw [h6]
      cases rest with
      | nil => simp
      | cons d ds =>
        rw [List.getLast?_eq_getLast (c :: d :: ds) (List.cons_ne_nil _ _),
          List.getLast?_eq_getLast (d :: ds) (List.cons_ne_nil _ _)]
        simp

/-- Witness for C8: two mode-16 messages with different sampling rates while
mode 16 is running. -/
theorem C8_same_mode_keeps_processor_witness :
    (∀ c ∈ [({ mode := 16, sampling_rate := 1, rest := [] } : BasebandConfiguration),
            { mode := 16, sampling_rate := 2, rest := [7] }],
        c.mode = lcr_running.baseband_configuration.mode) ∧
    ([({ mode := 16, sampling_rate := 1, rest := [] } : BasebandConfiguration),
      { mode := 16, sampling_rate := 2, rest := [7] }].foldl handler lcr_running).baseband_processor
      = lcr_running.baseband_processor ∧
    ([({ mode := 16, sampling_rate := 1, rest := [] } : BasebandConfiguration),
      { mode := 16, sampling_rate := 2, rest := [7] }].foldl handler
        lcr_running).baseband_configuration
      = { mode := 16, sampling_rate := 2, rest := [7] } :=
  ⟨by decide,
   (C8_same_mode_keeps_processor lcr_running
      [{ mode := 16, sampling_rate := 1, rest := [] },
       { mode := 16, sampling_rate := 2, rest := [7] }] (by decide)).2.1,
   (C8_same_mode_keeps_processor lcr_running
      [{ mode := 16, sampling_rate := 1, rest := [] },
       { mode := 16, sampling_rate := 2, rest := [7] }] (by decide)).2.2.2.2.2.2⟩

/-- C9: a configuration message whose mode differs from the stored mode and has
no `case` in the switch leaves no active processor and the direction as it
was; the effects of the call contain no `dma::enable`; the stored
configuration becomes the message's, so the same message sent again takes the
unchanged-mode path (one more `dma::configure`, nothing else). -/
theorem C9_unknown_mode_no_processor (st : HandlerState) (c : BasebandConfiguration)
    (hne : c.mode ≠ st.baseband_configuration.mode) (hunk : c.mode ∉ supported_modes) :
    (handler st c).baseband_processor = none ∧
    (handler st c).direction = st.direction ∧
    (∃ effs : List Effect, (handler st c).trace = st.trace ++ effs ∧
      ∀ d, Effect.dma_enable d ∉ effs) ∧
    (handler st c).baseband_configuration = c ∧
    handler (handler st c) c =
      { handler st c with
        trace := (handler st c).trace ++ [Effect.dma_configure (handler st c).direction] } := by
  have hcfg : (handler st c).baseband_configuration = c := by simp [handler]
  refine ⟨?_, ?_, ?_, hcfg, ?_⟩
  · cases hp : st.baseband_processor <;>
      simp [handler, hne, change_mode, hp, switch_mode_unknown _ _ hunk, emit, rssi_stop]
  · cases hp : st.baseband_processor <;>
      simp [handler, hne, change_mode, hp, switch_mode_unknown _ _ hunk, emit, rssi_stop]
  · cases hp : st.baseband_processor with
    | none =>
      refine ⟨[Effect.detach, Effect.dma_configure st.direction], ?_, ?_⟩
      · simp [handler, hne, change_mode, hp, switch_mode_unknown _ _ hunk, emit]
      · intro d; simp
    | some p =>
      refine ⟨[Effect.tx_mute, Effect.dma_disable, Effect.rssi_stop, Effect.detach,
        Effect.destroy p, Effect.dma_configure st.direction], ?_, ?_⟩
      · simp [handler, hne, change_mode, hp, switch_mode_unknown _ _ hunk, emit, rssi_stop]
      · intro d; simp
  · rw [handler_same_mode (handler st c) c (by rw [hcfg])]
    simp [hcfg]

/-- Witness for C9: mode 17 (its `case` is commented out in the source) sent
while mode 16 is running. -/
theorem C9_unknown_mode_no_processor_witness :
    (17 : Int) ≠ lcr_running.baseband_configuration.mode ∧ (17 : Int) ∉ supported_modes ∧
    (handler lcr_running { mode := 17, sampling_rate := 0, rest := [] }).baseband_processor
      = none ∧
    (handler lcr_running { mode := 17, sampling_rate := 0, rest := [] }).direction
      = lcr_running.direction :=
  ⟨by decide, by decide,
   (C9_unknown_mode_no_processor lcr_running { mode := 17, sampling_rate := 0, rest := [] }
      (by decide) (by decide)).1,
   (C9_unknown_mode_no_processor lcr_running { mode := 17, sampling_rate := 0, rest := [] }
      (by decide) (by decide)).2.1⟩

end HandlerState

end Baseband

namespace Baseband
namespace LCRFSKProcessor

/-! ## LCR/FSK generator: framing versus timing -/

theorem framing_bit_boundary (w : SharedMemory × LCRFSKProcessor) :
    framing (bit_boundary w) = bit_boundary (framing w) := by
  simp only [framing, bit_boundary, frame_bit]
  split_ifs <;> simp

theorem bit_boundary_spb (w : SharedMemory × LCRFSKProcessor) :
    (bit_boundary w).1.afsk_samples_per_bit = w.1.afsk_samples_per_bit := by
  simp only [bit_boundary]
  split_ifs <;> simp

theorem bit_boundary_s (w : SharedMemory × LCRFSKProcessor) :
    (bit_boundary w).2.s = w.2.s ∧ (bit_boundary w).2.sample_count = 0 := by
  simp only [bit_boundary, frame_bit]
  split_ifs <;> simp

theorem framing_fm_output (sm : SharedMemory) (p : LCRFSKProcessor) :
    framing (sm, fm_output sm p) = framing (sm, p) := by
  simp [framing, fm_output]

theorem framing_tone (sm : SharedMemory) (p : LCRFSKProcessor) (a : Nat) (x : Int) :
    framing (sm, { p with aphase := a, sample := x }) = framing (sm, p) := by
  simp [framing]

/-- A sample that is not a symbol tick. -/
theorem execute_sample_idle (w : SharedMemory × LCRFSKProcessor) (h : w.2.s < 9) :
    framing (execute_sample w) = framing w ∧ (execute_sample w).2.s = w.2.s + 1 ∧
    (execute_sample w).2.sample_count = w.2.sample_count := by
  have h1 : ¬ w.2.s ≥ 9 := by omega
  have h2 : (w.2.s + 1) % 256 = w.2.s + 1 := by omega
  simp only [execute_sample, h1, h2, if_false, framing_fm_output]
  simp [framing, fm_output]

/-- A symbol tick inside a bit. -/
theorem execute_sample_tick (w : SharedMemory × LCRFSKProcessor) (h : 9 ≤ w.2.s)
    (hc : w.2.sample_count < w.1.afsk_samples_per_bit)
    (hs : w.1.afsk_samples_per_bit < 4294967296) :
    framing (execute_sample w) = framing w ∧ (execute_sample w).2.s = 0 ∧
    (execute_sample w).2.sample_count = w.2.sample_count + 1 := by
  have h1 : ¬ w.2.sample_count ≥ w.1.afsk_samples_per_bit := by omega
  have h2 : (w.2.sample_count + 1) % 4294967296 = w.2.sample_count + 1 := by omega
  simp only [execute_sample, symbol_tick, h, h1, h2, ge_iff_le, if_true, if_false,
    framing_fm_output, framing_tone]
  simp [framing, fm_output]

/-- A symbol tick at a bit boundary. -/
theorem execute_sample_boundary (w : SharedMemory × LCRFSKProcessor) (h : 9 ≤ w.2.s)
    (hc : w.1.afsk_samples_per_bit ≤ w.2.sample_count) :
    framing (execute_sample w) = bit_boundary (framing w) ∧ (execute_sample w).2.s = 0 ∧
    (execute_sample w).2.sample_count = 0 := by
  have hb := bit_boundary_s (w.1, { w.2 with s := 0 })
  have hf : framing (bit_boundary (w.1, { w.2 with s := 0 })) = bit_boundary (framing w) := by
    rw [framing_bit_boundary]; rfl
  simp only [execute_sample, symbol_tick, h, hc, ge_iff_le, if_true,
    framing_fm_output, framing_tone, Prod.mk.eta, hf]
  simp [fm_output, hb.1, hb.2]


theorem execute_add (a b : Nat) (w : SharedMemory × LCRFSKProcessor) :
    execute (a + b) w = execute b (execute a w) := by
  induction b with
  | zero => rfl
  | succ b ih => rw [← Nat.add_assoc, execute, execute, ih]

theorem framing_spb (w : SharedMemory × LCRFSKProcessor) :
    (framing w).1.afsk_samples_per_bit = w.1.afsk_samples_per_bit := rfl

theorem spb_of_framing_eq {w v : SharedMemory × LCRFSKProcessor} (h : framing w = framing v) :
    w.1.afsk_samples_per_bit = v.1.afsk_samples_per_bit := by
  rw [← framing_spb w, h, framing_spb]

theorem bit_boundaries_spb (j : Nat) (w : SharedMemory × LCRFSKProcessor) :
    (bit_boundaries j w).1.afsk_samples_per_bit = w.1.afsk_samples_per_bit := by
  induction j with
  | zero => rfl
  | succ j ih => rw [bit_boundaries, bit_boundary_spb, ih]

/-- Up to nine samples after a symbol tick nothing but `s` changes. -/
theorem execute_idle_run (t : Nat) (w : SharedMemory × LCRFSKProcessor) (h : w.2.s + t ≤ 9) :
    framing (execute t w) = framing w ∧ (execute t w).2.s = w.2.s + t ∧
    (execute t w).2.sample_count = w.2.sample_count := by
  induction t with
  | zero => exact ⟨rfl, rfl, rfl⟩
  | succ t ih =>
    obtain ⟨h1, h2, h3⟩ := ih (by omega)
    obtain ⟨g1, g2, g3⟩ := execute_sample_idle (execute t w) (by omega)
    refine ⟨?_, ?_, ?_⟩
    · rw [execute, g1, h1]
    · rw [execute, g2, h2]; omega
    · rw [execute, g3, h3]

/-- Ten samples inside a bit: one symbol tick that only counts. -/
theorem execute_symbol (w : SharedMemory × LCRFSKProcessor) (hs : w.2.s = 0)
    (hc : w.2.sample_count < w.1.afsk_samples_per_bit)
    (hb : w.1.afsk_samples_per_bit < 4294967296) :
    framing (execute 10 w) = framing w ∧ (execute 10 w).2.s = 0 ∧
    (execute 10 w).2.sample_count = w.2.sample_count + 1 := by
  obtain ⟨h1, h2, h3⟩ := execute_idle_run 9 w (by omega)
  have hspb := spb_of_framing_eq h1
  obtain ⟨g1, g2, g3⟩ := execute_sample_tick (execute 9 w) (by omega) (by omega) (by omega)
  have e : execute 10 w = execute_sample (execute 9 w) := rfl
  refine ⟨?_, ?_, ?_⟩
  · rw [e, g1, h1]
  · rw [e, g2]
  · rw [e, g3, h3]

/-- `m` symbol periods inside a bit. -/
theorem execute_symbols (m : Nat) (w : SharedMemory × LCRFSKProcessor) (hs : w.2.s = 0)
    (hc : w.2.sample_count + m ≤ w.1.afsk_samples_per_bit)
    (hb : w.1.afsk_samples_per_bit < 4294967296) :
    framing (execute (10 * m) w) = framing w ∧ (execute (10 * m) w).2.s = 0 ∧
    (execute (10 * m) w).2.sample_count = w.2.sample_count + m := by
  induction m with
  | zero => exact ⟨rfl, hs, rfl⟩
  | succ m ih =>
    obtain ⟨h1, h2, h3⟩ := ih (by omega)
    have hspb := spb_of_framing_eq h1
    obtain ⟨g1, g2, g3⟩ := execute_symbol (execute (10 * m) w) h2 (by omega) (by omega)
    have e : execute (10 * (m + 1)) w = execute 10 (execute (10 * m) w) := by
      rw [← execute_add]; rfl
    refine ⟨?_, ?_, ?_⟩
    · rw [e, g1, h1]
    · rw [e, g2]
    · rw [e, g3, h3]; omega

/-- Inside a bit period the framing state does not change. -/
theorem execute_within_bit (m t : Nat) (w : SharedMemory × LCRFSKProcessor) (hs : w.2.s = 0)
    (hc : w.2.sample_count = 0) (hm : m ≤ w.1.afsk_samples_per_bit) (ht : t ≤ 9)
    (hb : w.1.afsk_samples_per_bit < 4294967296) :
    framing (execute (10 * m + t) w) = framing w ∧ (execute (10 * m + t) w).2.s = t ∧
    (execute (10 * m + t) w).2.sample_count = m := by
  obtain ⟨h1, h2, h3⟩ := execute_symbols m w hs (by omega) hb
  obtain ⟨g1, g2, g3⟩ := execute_idle_run t (execute (10 * m) w) (by omega)
  rw [execute_add]
  refine ⟨?_, ?_, ?_⟩
  · rw [g1, h1]
  · rw [g2, h2]; omega
  · rw [g3, h3]; omega

/-- One bit period, `10 * (afsk_samples_per_bit + 1)` samples, ends with exactly
one bit boundary. -/
theorem execute_bit (w : SharedMemory × LCRFSKProcessor) (hs : w.2.s = 0)
    (hc : w.2.sample_count = 0) (hb : w.1.afsk_samples_per_bit < 4294967296) :
    framing (execute (10 * (w.1.afsk_samples_per_bit + 1)) w) = bit_boundary (framing w) ∧
    (execute (10 * (w.1.afsk_samples_per_bit + 1)) w).2.s = 0 ∧
    (execute (10 * (w.1.afsk_samples_per_bit + 1)) w).2.sample_count = 0 := by
  obtain ⟨h1, h2, h3⟩ :=
    execute_within_bit w.1.afsk_samples_per_bit 9 w hs hc (Nat.le_refl _) (Nat.le_refl _) hb
  have hspb := spb_of_framing_eq h1
  obtain ⟨g1, g2, g3⟩ :=
    execute_sample_boundary (execute (10 * w.1.afsk_samples_per_bit + 9) w) (by omega) (by omega)
  have e : execute (10 * (w.1.afsk_samples_per_bit + 1)) w
      = execute_sample (execute (10 * w.1.afsk_samples_per_bit + 9) w) := rfl
  refine ⟨?_, ?_, ?_⟩
  · rw [e, g1, h1]
  · rw [e, g2]
  · rw [e, g3]

/-- After `j` whole bit periods the framing state is that of `j` bit
boundaries. -/
theorem execute_bits (j : Nat) (w : SharedMemory × LCRFSKProcessor) (hs : w.2.s = 0)
    (hc : w.2.sample_count = 0) (hb : w.1.afsk_samples_per_bit < 4294967296) :
    framing (execute (10 * (w.1.afsk_samples_per_bit + 1) * j) w)
      = bit_boundaries j (framing w) ∧
    (execute (10 * (w.1.afsk_samples_per_bit + 1) * j) w).2.s = 0 ∧
    (execute (10 * (w.1.afsk_samples_per_bit + 1) * j) w).2.sample_count = 0 := by
  induction j with
  | zero => exact ⟨rfl, hs, hc⟩
  | succ j ih =>
    obtain ⟨h1, h2, h3⟩ := ih
    have hspb : (execute (10 * (w.1.afsk_samples_per_bit + 1) * j) w).1.afsk_samples_per_bit
        = w.1.afsk_samples_per_bit := by
      rw [← framing_spb, h1, bit_boundaries_spb, framing_spb]
    obtain ⟨g1, g2, g3⟩ :=
      execute_bit (execute (10 * (w.1.afsk_samples_per_bit + 1) * j) w) h2 h3 (by omega)
    rw [hspb] at g1 g2 g3
    have e : execute (10 * (w.1.afsk_samples_per_bit + 1) * (j + 1)) w
        = execute (10 * (w.1.afsk_samples_per_bit + 1))
            (execute (10 * (w.1.afsk_samples_per_bit + 1) * j) w) := by
      rw [← execute_add, Nat.mul_succ]
    refine ⟨?_, ?_, ?_⟩
    · rw [e, g1, h1, bit_boundaries]
    · rw [e, g2]
    · rw [e, g3]

/-- The framing state after any number `n` of samples: that of
`n / (10 * (afsk_samples_per_bit + 1))` bit boundaries. -/
theorem framing_execute (n : Nat) (w : SharedMemory × LCRFSKProcessor) (hs : w.2.s = 0)
    (hc : w.2.sample_count = 0) (hb : w.1.afsk_samples_per_bit < 4294967296) :
    framing (execute n w)
      = bit_boundaries (n / (10 * (w.1.afsk_samples_per_bit + 1))) (framing w) := by
  have hP : 0 < 10 * (w.1.afsk_samples_per_bit + 1) := by omega
  have hn := Nat.div_add_mod n (10 * (w.1.afsk_samples_per_bit + 1))
  have hr := Nat.mod_lt n hP
  have hr2 := Nat.div_add_mod (n % (10 * (w.1.afsk_samples_per_bit + 1))) 10
  have ht := Nat.mod_lt (n % (10 * (w.1.afsk_samples_per_bit + 1))) (by omega : 0 < 10)
  obtain ⟨h1, h2, h3⟩ := execute_bits (n / (10 * (w.1.afsk_samples_per_bit + 1))) w hs hc hb
  have hspb : (execute (10 * (w.1.afsk_samples_per_bit + 1) *
      (n / (10 * (w.1.afsk_samples_per_bit + 1)))) w).1.afsk_samples_per_bit
        = w.1.afsk_samples_per_bit := by
    rw [← framing_spb, h1, bit_boundaries_spb, framing_spb]
  obtain ⟨g1, -, -⟩ := execute_within_bit
    (n % (10 * (w.1.afsk_samples_per_bit + 1)) / 10)
    (n % (10 * (w.1.afsk_samples_per_bit + 1)) % 10)
    (execute (10 * (w.1.afsk_samples_per_bit + 1) *
      (n / (10 * (w.1.afsk_samples_per_bit + 1)))) w) h2 h3
    (by rw [hspb]; omega) (by omega) (by omega)
  rw [hr2, ← execute_add, hn] at g1
  rw [g1, h1]


/-! ## LCR/FSK generator: bit framing -/

theorem bit_boundaries_add (a b : Nat) (w : SharedMemory × LCRFSKProcessor) :
    bit_boundaries (a + b) w = bit_boundaries b (bit_boundaries a w) := by
  induction b with
  | zero => rfl
  | succ b ih => rw [← Nat.add_assoc, bit_boundaries, bit_boundaries, ih]

/-- A boundary at which a non-zero byte is fetched only frames a bit. -/
theorem bit_boundary_data (w : SharedMemory × LCRFSKProcessor) (b : Nat)
    (hdone : w.1.afsk_transmit_done = false) (hbyte : w.1.lcrdata w.2.byte_pos % 256 = b)
    (hb : b ≠ 0) :
    bit_boundary w = (w.1, frame_bit { w.2 with cur_byte := b }) := by
  simp [bit_boundary, hdone, hbyte, hb]

/-- A boundary at which the terminator is fetched while repeats remain. -/
theorem bit_boundary_repeat (w : SharedMemory × LCRFSKProcessor)
    (hdone : w.1.afsk_transmit_done = false) (hbyte : w.1.lcrdata w.2.byte_pos % 256 = 0)
    (hr : w.1.afsk_repeat ≠ 0) :
    bit_boundary w =
      ({ w.1 with afsk_repeat := w.1.afsk_repeat - 1,
                  application_queue := w.1.application_queue ++
                    [Message.TXDone ((w.1.afsk_repeat - 1 : Nat) : Int)] },
       frame_bit { w.2 with bit_pos := 0, byte_pos := 0, cur_byte := w.1.lcrdata 0 % 256,
                            message := { n := ((w.1.afsk_repeat - 1 : Nat) : Int) } }) := by
  simp [bit_boundary, hdone, hbyte, hr]

/-- A boundary at which the terminator is fetched and no repeat remains. -/
theorem bit_boundary_done (w : SharedMemory × LCRFSKProcessor)
    (hdone : w.1.afsk_transmit_done = false) (hbyte : w.1.lcrdata w.2.byte_pos % 256 = 0)
    (hr : w.1.afsk_repeat = 0) :
    bit_boundary w =
      ({ w.1 with afsk_transmit_done := true,
                  application_queue := w.1.application_queue ++ [Message.TXDone 0] },
       frame_bit { w.2 with message := { n := 0 }, cur_byte := 0 }) := by
  simp [bit_boundary, hdone, hbyte, hr]

/-- A boundary after completion: the byte is not fetched, `cur_byte` is still
`0`, and the completion branch runs again. -/
theorem bit_boundary_after_done (w : SharedMemory × LCRFSKProcessor)
    (hdone : w.1.afsk_transmit_done = true) (hbyte : w.2.cur_byte = 0)
    (hr : w.1.afsk_repeat = 0) :
    bit_boundary w =
      ({ w.1 with afsk_transmit_done := true,
                  application_queue := w.1.application_queue ++ [Message.TXDone 0] },
       frame_bit { w.2 with message := { n := 0 }, cur_byte := 0 }) := by
  simp [bit_boundary, hdone, hbyte, hr]

theorem frame_bit_lt (p : LCRFSKProcessor) (h : p.bit_pos < 9) :
    frame_bit p =
      { p with gbyte := ((p.cur_byte <<< 1) % 65536) ||| 1,
               cur_bit := ((((p.cur_byte <<< 1) % 65536) ||| 1) >>> (9 - p.bit_pos)) &&& 1,
               bit_pos := p.bit_pos + 1, sample_count := 0 } := by
  have h1 : p.bit_pos ≠ 9 := by omega
  have h2 : (p.bit_pos + 1) % 256 = p.bit_pos + 1 := by omega
  simp [frame_bit, h1, h2]

theorem frame_bit_last (p : LCRFSKProcessor) (h : p.bit_pos = 9) :
    frame_bit p =
      { p with gbyte := ((p.cur_byte <<< 1) % 65536) ||| 1,
               cur_bit := ((((p.cur_byte <<< 1) % 65536) ||| 1) >>> 0) &&& 1,
               bit_pos := 0, byte_pos := (p.byte_pos + 1) % 256, sample_count := 0 } := by
  simp [frame_bit, h]

/-- While a non-zero byte `b` is being sent, `k + 1` boundaries that stay inside
the frame leave the shared memory alone and set `cur_bit` to bit
`9 - (bit_pos + k)` of the frame word `(b << 1) | 1`. -/
theorem bit_boundaries_data (k : Nat) (w : SharedMemory × LCRFSKProcessor) (b : Nat)
    (hdone : w.1.afsk_transmit_done = false) (hbyte : w.1.lcrdata w.2.byte_pos % 256 = b)
    (hb : b ≠ 0) (hk : w.2.bit_pos + k < 9) :
    bit_boundaries (k + 1) w =
      (w.1, { w.2 with cur_byte := b, gbyte := ((b <<< 1) % 65536) ||| 1,
                       cur_bit := ((((b <<< 1) % 65536) ||| 1) >>> (9 - (w.2.bit_pos + k))) &&& 1,
                       bit_pos := w.2.bit_pos + k + 1, sample_count := 0 }) := by
  induction k with
  | zero =>
    have h1 : ¬ (w.2.bit_pos = 9) := by omega
    have h2 : (w.2.bit_pos + 1) % 256 = w.2.bit_pos + 1 := by omega
    simp [bit_boundaries, bit_boundary, frame_bit, hdone, hbyte, hb, h1, h2]
  | succ k ih =>
    rw [bit_boundaries, ih (by omega)]
    have h1 : ¬ (w.2.bit_pos + k + 1 = 9) := by omega
    have h2 : (w.2.bit_pos + k + 1 + 1) % 256 = w.2.bit_pos + (k + 1) + 1 := by omega
    have h3 : w.2.bit_pos + k + 1 = w.2.bit_pos + (k + 1) := by omega
    simp only [bit_boundary, frame_bit, hdone, hbyte, hb, h1, h2, if_true, if_false]
    rw [h3]

/-- The rest of a frame: from any bit position `<= 9` of a non-zero byte `b`,
`10 - bit_pos` boundaries end the frame with the stop bit, `bit_pos = 0` and
`byte_pos` advanced by one. -/
theorem bit_boundaries_frame (w : SharedMemory × LCRFSKProcessor) (b : Nat)
    (hdone : w.1.afsk_transmit_done = false) (hbyte : w.1.lcrdata w.2.byte_pos % 256 = b)
    (hb : b ≠ 0) (hk : w.2.bit_pos ≤ 9) :
    bit_boundaries (10 - w.2.bit_pos) w =
      (w.1, { w.2 with cur_byte := b, gbyte := ((b <<< 1) % 65536) ||| 1,
                       cur_bit := ((((b <<< 1) % 65536) ||| 1) >>> 0) &&& 1,
                       bit_pos := 0, byte_pos := (w.2.byte_pos + 1) % 256,
                       sample_count := 0 }) := by
  by_cases h9 : w.2.bit_pos = 9
  · rw [h9]
    simp [bit_boundaries, bit_boundary, frame_bit, hdone, hbyte, hb, h9]
  · have e : 10 - w.2.bit_pos = (8 - w.2.bit_pos) + 1 + 1 := by omega
    have h1 : w.2.bit_pos + (8 - w.2.bit_pos) + 1 = 9 := by omega
    rw [e, bit_boundaries, bit_boundaries_data (8 - w.2.bit_pos) w b hdone hbyte hb (by omega)]
    simp only [bit_boundary, frame_bit, hdone, hbyte, hb, h1, if_true, if_false]


set_option maxRecDepth 100000 in
/-- The ten bits selected from the frame word `(b << 1) | 1` of a byte `b`:
start bit `0`, the eight bits of `b` from bit 7 down to bit 0, stop bit `1`. -/
theorem frame_word_bits : ∀ b < 256,
    (List.range 10).map (fun i => ((((b <<< 1) % 65536) ||| 1) >>> (9 - i)) &&& 1)
      = [0, (b >>> 7) % 2, (b >>> 6) % 2, (b >>> 5) % 2, (b >>> 4) % 2, (b >>> 3) % 2,
         (b >>> 2) % 2, (b >>> 1) % 2, b % 2, 1] := by
  decide

theorem bit_boundaries_succ_left (k : Nat) (w : SharedMemory × LCRFSKProcessor) :
    bit_boundaries (k + 1) w = bit_boundaries k (bit_boundary w) := by
  rw [Nat.add_comm, bit_boundaries_add]
  rfl

end LCRFSKProcessor
end Baseband

namespace Baseband
namespace LCRFSKProcessor

/-! ## LCR/FSK generator: the `[0x41, 0x00]` buffer -/

theorem framing_fst (w : SharedMemory × LCRFSKProcessor) : (framing w).1 = w.1 := rfl

theorem framing_fresh (sm : SharedMemory) : framing (sm, fresh) = (sm, fresh) := rfl

/-- Once set, `afsk_transmit_done` stays set. -/
theorem bit_boundary_done_stays (w : SharedMemory × LCRFSKProcessor)
    (h : w.1.afsk_transmit_done = true) : (bit_boundary w).1.afsk_transmit_done = true := by
  simp only [bit_boundary]
  split_ifs <;> simp [h]

theorem bit_boundaries_done_stays (k : Nat) (w : SharedMemory × LCRFSKProcessor)
    (h : w.1.afsk_transmit_done = true) : (bit_boundaries k w).1.afsk_transmit_done = true := by
  induction k with
  | zero => exact h
  | succ k ih => exact bit_boundary_done_stays _ ih

/-- If transmission is not done after `j` boundaries, it was not done before. -/
theorem bit_boundaries_not_done_before (i j : Nat) (w : SharedMemory × LCRFSKProcessor)
    (hij : i ≤ j) (h : (bit_boundaries j w).1.afsk_transmit_done = false) :
    (bit_boundaries i w).1.afsk_transmit_done = false := by
  cases hd : (bit_boundaries i w).1.afsk_transmit_done with
  | false => rfl
  | true =>
    have e : j = i + (j - i) := by omega
    rw [e, bit_boundaries_add, bit_boundaries_done_stays _ _ hd] at h
    exact absurd h (by decide)

set_option maxRecDepth 100000 in
/-- C1 (failing input): buffer `[0x41, 0x00]`, `afsk_repeat = 0`, one symbol tick
per bit (`afsk_samples_per_bit = 0`, a bit boundary every 10 samples). The
terminator is reached at the 11th boundary (sample 110), where the first
`TXDone{0}` is pushed; the 12th boundary (sample 120) runs the completion
branch again and pushes a second one, and so does every later boundary. -/
theorem C1_txdone_pushed_again_after_completion :
    (execute 110 (lcr_shared [0x41, 0] 0 353205 647542 500 0, fresh)).1.application_queue
      = [Message.TXDone 0] ∧
    (execute 110 (lcr_shared [0x41, 0] 0 353205 647542 500 0, fresh)).1.afsk_transmit_done
      = true ∧
    (execute 120 (lcr_shared [0x41, 0] 0 353205 647542 500 0, fresh)).1.application_queue
      = [Message.TXDone 0, Message.TXDone 0] ∧
    (execute 130 (lcr_shared [0x41, 0] 0 353205 647542 500 0, fresh)).1.application_queue
      = [Message.TXDone 0, Message.TXDone 0, Message.TXDone 0] := by
  decide

set_option maxRecDepth 100000 in
/-- C2 (counterexample): buffer `[0x41, 0x00]`, `afsk_repeat = 2`, one symbol tick
per bit. Transmission completes at sample 310 (not before), and the messages
pushed up to then carry `n = 1, 0, 0`, not `n = 2, 1, 0`. -/
theorem C2_repeat_counts_are_not_2_1_0 :
    (execute 309 (lcr_shared [0x41, 0] 0 353205 647542 500 2, fresh)).1.afsk_transmit_done
      = false ∧
    (execute 310 (lcr_shared [0x41, 0] 0 353205 647542 500 2, fresh)).1.afsk_transmit_done
      = true ∧
    (execute 310 (lcr_shared [0x41, 0] 0 353205 647542 500 2, fresh)).1.application_queue
      = [Message.TXDone 1, Message.TXDone 0, Message.TXDone 0] ∧
    (execute 310 (lcr_shared [0x41, 0] 0 353205 647542 500 2, fresh)).1.application_queue
      ≠ [Message.TXDone 2, Message.TXDone 1, Message.TXDone 0] := by
  decide

set_option maxHeartbeats 4000000 in
set_option maxRecDepth 100000 in
/-- C2 (amended): from the freshly constructed state with buffer `[0x41, 0x00]`,
`afsk_repeat = 2`, transmission not done and an empty queue, for every
samples-per-bit value `N`: transmission is not done during the first
`31 * 10 * (N + 1) - 1` samples and is done at sample `31 * 10 * (N + 1)`; the
messages pushed up to and including that sample are exactly three, carrying
`n = 1`, `n = 0` (the two repeat messages, each with the already decremented
repeat count) and the final `n = 0`; `afsk_repeat` is then `0`. -/
theorem C2_repeat_messages_are_1_0_0 (sm : SharedMemory)
    (h0 : sm.lcrdata 0 = 0x41) (h1 : sm.lcrdata 1 = 0) (hr : sm.afsk_repeat = 2)
    (hd : sm.afsk_transmit_done = false) (hq : sm.application_queue = [])
    (hs : sm.afsk_samples_per_bit < 4294967296) :
    (execute (10 * (sm.afsk_samples_per_bit + 1) * 31) (sm, fresh)).1.application_queue
      = [Message.TXDone 1, Message.TXDone 0, Message.TXDone 0] ∧
    (execute (10 * (sm.afsk_samples_per_bit + 1) * 31) (sm, fresh)).1.afsk_transmit_done
      = true ∧
    (execute (10 * (sm.afsk_samples_per_bit + 1) * 31) (sm, fresh)).1.afsk_repeat = 0 ∧
    ∀ n, n < 10 * (sm.afsk_samples_per_bit + 1) * 31 →
      (execute n (sm, fresh)).1.afsk_transmit_done = false := by
  have hP : 0 < 10 * (sm.afsk_samples_per_bit + 1) := by omega
  have hfr : ∀ n, (execute n (sm, fresh)).1
      = (bit_boundaries (n / (10 * (sm.afsk_samples_per_bit + 1))) (sm, fresh)).1 := by
    intro n
    rw [← framing_fst (execute n (sm, fresh)), framing_execute n (sm, fresh) rfl rfl hs,
      framing_fresh]
  have h31 : 10 * (sm.afsk_samples_per_bit + 1) * 31 / (10 * (sm.afsk_samples_per_bit + 1))
      = 31 := Nat.mul_div_cancel_left 31 hP
  have e30 : (bit_boundaries 30 (sm, fresh)).1.afsk_transmit_done = false := by
    simp [bit_boundaries, bit_boundary, frame_bit, fresh, h0, h1, hr, hd]
  refine ⟨?_, ?_, ?_, ?_⟩
  · rw [hfr, h31]
    simp [bit_boundaries, bit_boundary, frame_bit, fresh, h0, h1, hr, hd, hq]
  · rw [hfr, h31]
    simp [bit_boundaries, bit_boundary, frame_bit, fresh, h0, h1, hr, hd]
  · rw [hfr, h31]
    simp [bit_boundaries, bit_boundary, frame_bit, fresh, h0, h1, hr, hd]
  · intro n hn
    rw [hfr]
    have hlt : n / (10 * (sm.afsk_samples_per_bit + 1)) < 31 :=
      (Nat.div_lt_iff_lt_mul hP).mpr (by rw [Nat.mul_comm]; exact hn)
    exact bit_boundaries_not_done_before _ 30 _ (by omega) e30

/-- Witness for C2 (amended): `afsk_samples_per_bit = 0`, i.e. 310 samples. -/
theorem C2_repeat_messages_are_1_0_0_witness :
    (lcr_shared [0x41, 0] 0 353205 647542 500 2).lcrdata 0 = 0x41 ∧
    (lcr_shared [0x41, 0] 0 353205 647542 500 2).lcrdata 1 = 0 ∧
    (lcr_shared [0x41, 0] 0 353205 647542 500 2).afsk_repeat = 2 ∧
    (execute (10 * ((lcr_shared [0x41, 0] 0 353205 647542 500 2).afsk_samples_per_bit + 1) * 31)
      (lcr_shared [0x41, 0] 0 353205 647542 500 2, fresh)).1.application_queue
      = [Message.TXDone 1, Message.TXDone 0, Message.TXDone 0] :=
  ⟨rfl, rfl, rfl,
   (C2_repeat_messages_are_1_0_0 (lcr_shared [0x41, 0] 0 353205 647542 500 2)
      rfl rfl rfl rfl rfl (by decide)).1⟩

end LCRFSKProcessor
end Baseband

namespace Baseband
namespace JammerProcessor

/-! ## Jammer: the range-advance loop -/

theorem next_range_succ (a : Nat → Bool) (fuel ir : Nat) (h : ir ≤ 15) :
    next_range a (fuel + 1) ir =
      if a ((ir + 1) % 16) = true then some ((ir + 1) % 16)
      else next_range a fuel ((ir + 1) % 16) := by
  have e : (if ir + 1 > 15 then 0 else ir + 1) = (ir + 1) % 16 := by
    split <;> omega
  simp only [next_range, e]

/-- What the loop returns: the first active index strictly after `ir` in cyclic
order, reached after `d` increments, every index passed on the way inactive. -/
theorem next_range_spec (a : Nat → Bool) (fuel : Nat) :
    ∀ ir r, ir ≤ 15 → next_range a fuel ir = some r →
      ∃ d, 1 ≤ d ∧ d ≤ fuel ∧ r = (ir + d) % 16 ∧ a r = true ∧
        ∀ e, 1 ≤ e → e < d → a ((ir + e) % 16) = false := by
  induction fuel with
  | zero => intro ir r _ h; simp [next_range] at h
  | succ fuel ih =>
    intro ir r hir h
    rw [next_range_succ a fuel ir hir] at h
    by_cases ha : a ((ir + 1) % 16) = true
    · rw [if_pos ha] at h
      have hr : (ir + 1) % 16 = r := Option.some.inj h
      refine ⟨1, Nat.le_refl 1, by omega, hr.symm, hr ▸ ha, ?_⟩
      intro e h1 h2; omega
    · rw [if_neg ha] at h
      obtain ⟨d, hd1, hd2, hr, har, hmin⟩ := ih ((ir + 1) % 16) r (by omega) h
      refine ⟨d + 1, by omega, by omega, by omega, har, ?_⟩
      intro e h1 h2
      by_cases he : e = 1
      · subst he; simpa using ha
      · have := hmin (e - 1) (by omega) (by omega)
        have e2 : ((ir + 1) % 16 + (e - 1)) % 16 = (ir + e) % 16 := by omega
        rwa [e2] at this

/-- When the loop has not exited after `fuel` iterations, the `fuel` indices
after `ir` are all inactive. -/
theorem next_range_none (a : Nat → Bool) (fuel : Nat) :
    ∀ ir, ir ≤ 15 → next_range a fuel ir = none →
      ∀ e, 1 ≤ e → e ≤ fuel → a ((ir + e) % 16) = false := by
  induction fuel with
  | zero => intro ir _ _ e h1 h2; omega
  | succ fuel ih =>
    intro ir hir h e h1 h2
    rw [next_range_succ a fuel ir hir] at h
    by_cases ha : a ((ir + 1) % 16) = true
    · rw [if_pos ha] at h; exact absurd h (by simp)
    · rw [if_neg ha] at h
      by_cases he : e = 1
      · subst he; simpa using ha
      · have := ih ((ir + 1) % 16) (by omega) h (e - 1) (by omega) (by omega)
        have e2 : ((ir + 1) % 16 + (e - 1)) % 16 = (ir + e) % 16 := by omega
        rwa [e2] at this

/-- With some range active the loop exits within sixteen iterations. -/
theorem next_range_some (a : Nat → Bool) (ir j : Nat) (hir : ir ≤ 15) (hj : j < 16)
    (ha : a j = true) : ∃ r, next_range a 16 ir = some r := by
  cases h : next_range a 16 ir with
  | some r => exact ⟨r, rfl⟩
  | none =>
    have := next_range_none a 16 ir hir h ((j + 16 - ir - 1) % 16 + 1) (by omega) (by omega)
    have e : (ir + ((j + 16 - ir - 1) % 16 + 1)) % 16 = j := by omega
    rw [e, ha] at this
    exact absurd this (by decide)

/-- With no range active the loop never exits, whatever the number of
iterations. -/
theorem next_range_all_inactive (a : Nat → Bool) (h : ∀ j, j < 16 → a j = false)
    (fuel : Nat) :
    ∀ ir, next_range a fuel ir = none := by
  induction fuel with
  | zero => intro ir; rfl
  | succ fuel ih =>
    intro ir
    have e : (if ir + 1 > 15 then 0 else ir + 1) < 16 := by split <;> omega
    simp only [next_range, h _ e, ih]
    simp

/-- Sixteen iterations decide the loop: if it has not exited by then it never
does. -/
theorem next_range_sixteen_decides (a : Nat → Bool) (ir : Nat) (hir : ir ≤ 15)
    (h : next_range a 16 ir = none) (fuel : Nat) : next_range a fuel ir = none := by
  apply next_range_all_inactive
  intro j hj
  have := next_range_none a 16 ir hir h ((j + 16 - ir - 1) % 16 + 1) (by omega) (by omega)
  have e : (ir + ((j + 16 - ir - 1) % 16 + 1)) % 16 = j := by omega
  rwa [e] at this

/-- The loop only reads the sixteen table entries. -/
theorem next_range_congr (a b : Nat → Bool) (h : ∀ j, j < 16 → a j = b j) (fuel : Nat) :
    ∀ ir, next_range a fuel ir = next_range b fuel ir := by
  induction fuel with
  | zero => intro ir; rfl
  | succ fuel ih =>
    intro ir
    have e : (if ir + 1 > 15 then 0 else ir + 1) < 16 := by split <;> omega
    simp only [next_range, h _ e, ih]


/-! ## Jammer: duration timing -/

theorem sweep_output_frame (p : JammerProcessor) :
    (sweep_output p).s = p.s ∧ (sweep_output p).ir = p.ir ∧
    (sweep_output p).jammer_bw = p.jammer_bw ∧ (sweep_output p).message = p.message := by
  simp [sweep_output]

/-- A sample on which the duration counter has not reached its threshold. -/
theorem jammer_execute_sample_idle (w : SharedMemory × JammerProcessor) (h : w.2.s < 10000) :
    execute_sample w = some (w.1, sweep_output { w.2 with s := w.2.s + 1 }) := by
  have h1 : ¬ w.2.s ≥ 10000 := by omega
  have h2 : (w.2.s + 1) % 4294967296 = w.2.s + 1 := by omega
  simp only [execute_sample, h1, h2, if_false]

/-- A sample on which the duration counter has reached its threshold. -/
theorem jammer_execute_sample_expiry (w : SharedMemory × JammerProcessor) (r : Nat)
    (h : 10000 ≤ w.2.s)
    (hr : next_range (fun i => (w.1.jammer_ranges i).active) 16 w.2.ir = some r) :
    execute_sample w =
      some ({ w.1 with application_queue :=
                w.1.application_queue ++ [Message.Retune (w.1.jammer_ranges r).center] },
            sweep_output { w.2 with s := 0, ir := r, jammer_bw := (w.1.jammer_ranges r).width,
                                    message := { freq := (w.1.jammer_ranges r).center } }) := by
  simp only [execute_sample, duration_expiry, h, hr, ge_iff_le, if_true]

theorem jammer_execute_add (a b : Nat) (w : SharedMemory × JammerProcessor) :
    execute (a + b) w = (execute a w).bind (execute b) := by
  induction b with
  | zero => cases h : execute a w <;> simp [h, execute]
  | succ b ih =>
    rw [← Nat.add_assoc, execute, ih]
    cases h : execute a w with
    | none => rfl
    | some w1 => simp only [Option.bind, execute]

/-- Samples that stay below the threshold only count. -/
theorem jammer_execute_idle_run (t : Nat) (w : SharedMemory × JammerProcessor)
    (h : w.2.s + t ≤ 10000) :
    ∃ w', execute t w = some w' ∧ w'.1 = w.1 ∧ w'.2.s = w.2.s + t ∧ w'.2.ir = w.2.ir := by
  induction t with
  | zero => exact ⟨w, rfl, rfl, rfl, rfl⟩
  | succ t ih =>
    obtain ⟨w1, h1, h2, h3, h4⟩ := ih (by omega)
    refine ⟨(w1.1, sweep_output { w1.2 with s := w1.2.s + 1 }), ?_, ?_, ?_, ?_⟩
    · rw [execute, h1]
      exact jammer_execute_sample_idle w1 (by omega)
    · exact h2
    · rw [(sweep_output_frame _).1]; show w1.2.s + 1 = _; omega
    · rw [(sweep_output_frame _).2.1]; exact h4

/-- One duration period: 10000 counting samples, then the expiry on sample
10001. -/
theorem jammer_execute_period (w : SharedMemory × JammerProcessor) (r : Nat) (hs : w.2.s = 0)
    (hr : next_range (fun i => (w.1.jammer_ranges i).active) 16 w.2.ir = some r) :
    ∃ w', execute 10001 w = some w' ∧
      w'.1 = { w.1 with application_queue :=
                 w.1.application_queue ++ [Message.Retune (w.1.jammer_ranges r).center] } ∧
      w'.2.s = 0 ∧ w'.2.ir = r ∧ w'.2.jammer_bw = (w.1.jammer_ranges r).width := by
  obtain ⟨w1, h1, h2, h3, h4⟩ := jammer_execute_idle_run 10000 w (by omega)
  have hr1 : next_range (fun i => (w1.1.jammer_ranges i).active) 16 w1.2.ir = some r := by
    rw [h2, h4]; exact hr
  refine ⟨({ w1.1 with application_queue :=
                w1.1.application_queue ++ [Message.Retune (w1.1.jammer_ranges r).center] },
            sweep_output { w1.2 with s := 0, ir := r, jammer_bw := (w1.1.jammer_ranges r).width,
                                     message := { freq := (w1.1.jammer_ranges r).center } }),
    ?_, ?_, ?_, ?_, ?_⟩
  · show execute (10000 + 1) w = _
    rw [execute, h1]
    exact jammer_execute_sample_expiry w1 r (by omega) hr1
  · rw [h2]
  · rw [(sweep_output_frame _).1]
  · rw [(sweep_output_frame _).2.1]
  · rw [(sweep_output_frame _).2.2.1, h2]

/-- From a state with `s = 0` and a table with an active entry: after `n`
samples the run has not diverged, `s = n mod 10001`, and `n / 10001` Retune
messages have been appended to the queue. -/
theorem jammer_execute_count (w : SharedMemory × JammerProcessor) (hs : w.2.s = 0)
    (hir : w.2.ir ≤ 15) (j : Nat) (hj : j < 16) (ha : (w.1.jammer_ranges j).active = true)
    (n : Nat) :
    ∃ (w' : SharedMemory × JammerProcessor) (freqs : List Int),
      execute n w = some w' ∧ w'.2.s = n % 10001 ∧ w'.2.ir ≤ 15 ∧
      w'.1.jammer_ranges = w.1.jammer_ranges ∧
      w'.1.application_queue = w.1.application_queue ++ freqs.map Message.Retune ∧
      freqs.length = n / 10001 := by
  induction n with
  | zero => exact ⟨w, [], rfl, hs, hir, rfl, by simp, rfl⟩
  | succ n ih =>
    obtain ⟨w1, fs, h1, h2, h3, h4, h5, h6⟩ := ih
    by_cases hlt : w1.2.s < 10000
    · refine ⟨(w1.1, sweep_output { w1.2 with s := w1.2.s + 1 }), fs, ?_, ?_, ?_, ?_, ?_, ?_⟩
      · rw [execute, h1]; exact jammer_execute_sample_idle w1 hlt
      · rw [(sweep_output_frame _).1]; show w1.2.s + 1 = _; omega
      · rw [(sweep_output_frame _).2.1]; exact h3
      · exact h4
      · exact h5
      · omega
    · have ha1 : (w1.1.jammer_ranges j).active = true := by rw [h4]; exact ha
      obtain ⟨r, hr⟩ :=
        next_range_some (fun i => (w1.1.jammer_ranges i).active) w1.2.ir j h3 hj ha1
      obtain ⟨d, -, -, hrd, -, -⟩ := next_range_spec _ 16 w1.2.ir r h3 hr
      refine ⟨({ w1.1 with application_queue :=
                    w1.1.application_queue ++ [Message.Retune (w1.1.jammer_ranges r).center] },
                sweep_output { w1.2 with s := 0, ir := r,
                                         jammer_bw := (w1.1.jammer_ranges r).width,
                                         message := { freq := (w1.1.jammer_ranges r).center } }),
        fs ++ [(w1.1.jammer_ranges r).center], ?_, ?_, ?_, ?_, ?_, ?_⟩
      · rw [execute, h1]; exact jammer_execute_sample_expiry w1 r (by omega) hr
      · rw [(sweep_output_frame _).1]; show 0 = _; omega
      · rw [(sweep_output_frame _).2.1]; show r ≤ 15; omega
      · exact h4
      · show w1.1.application_queue ++ _ = _
        rw [h5]; simp
      · rw [List.length_append, h6]; show n / 10001 + 1 = _; omega

end JammerProcessor
end Baseband

namespace Baseband
namespace JammerProcessor

/-! ## Jammer: claims -/

/-- C5 (counterexample): with the ranges 0, 3, 7 active, after exactly 10000
samples (k = 1) no Retune message has been pushed yet. -/
theorem C5_no_retune_after_10000_samples :
    (execute 10000 (jammer_shared ranges_0_3_7, fresh)).map (fun w => w.1.application_queue)
      = some [] := by
  obtain ⟨w', fs, h1, -, -, -, h5, h6⟩ :=
    jammer_execute_count (jammer_shared ranges_0_3_7, fresh) rfl (by decide) 0 (by decide) rfl 10000
  have hfs : fs = [] := List.eq_nil_of_length_eq_zero h6
  rw [h1, Option.map_some', h5, hfs]
  rfl

/-- C5 (amended): from the freshly constructed state, with at least one of the
sixteen ranges active and an empty queue, the run never diverges and one
Retune message is pushed per 10001 processed samples, the first on sample
10001: after `n` samples the queue holds exactly `n / 10001` messages, all of
them Retune messages; in particular after `10001 * k` samples exactly `k`. -/
theorem C5_one_retune_per_10001_samples (sm : SharedMemory) (j : Nat) (hj : j < 16)
    (ha : (sm.jammer_ranges j).active = true) (hq : sm.application_queue = []) :
    (∀ k, ∃ (w' : SharedMemory × JammerProcessor) (freqs : List Int),
      execute (10001 * k) (sm, fresh) = some w' ∧
      w'.1.application_queue = freqs.map Message.Retune ∧ freqs.length = k) ∧
    (∀ n, ∃ (w' : SharedMemory × JammerProcessor) (freqs : List Int),
      execute n (sm, fresh) = some w' ∧
      w'.1.application_queue = freqs.map Message.Retune ∧ freqs.length = n / 10001) := by
  have key : ∀ n, ∃ (w' : SharedMemory × JammerProcessor) (freqs : List Int),
      execute n (sm, fresh) = some w' ∧
      w'.1.application_queue = freqs.map Message.Retune ∧ freqs.length = n / 10001 := by
    intro n
    obtain ⟨w', fs, h1, -, -, -, h5, h6⟩ :=
      jammer_execute_count (sm, fresh) rfl (Nat.zero_le 15) j hj ha n
    refine ⟨w', fs, h1, ?_, h6⟩
    rw [h5]
    show sm.application_queue ++ _ = _
    rw [hq, List.nil_append]
  refine ⟨?_, key⟩
  intro k
  obtain ⟨w', fs, h1, h2, h3⟩ := key (10001 * k)
  exact ⟨w', fs, h1, h2, by rw [h3]; omega⟩

/-- Witness for C5 (amended): the table with ranges 0, 3, 7 active. -/
theorem C5_one_retune_per_10001_samples_witness :
    (3 < 16 ∧ ((jammer_shared ranges_0_3_7).jammer_ranges 3).active = true ∧
      (jammer_shared ranges_0_3_7).application_queue = []) ∧
    ∃ (w' : SharedMemory × JammerProcessor) (freqs : List Int),
      execute (10001 * 2) (jammer_shared ranges_0_3_7, fresh) = some w' ∧
      w'.1.application_queue = freqs.map Message.Retune ∧ freqs.length = 2 :=
  ⟨⟨by decide, rfl, rfl⟩,
   (C5_one_retune_per_10001_samples (jammer_shared ranges_0_3_7) 3 (by decide) rfl rfl).1 2⟩

/-- C6: at a duration expiry (`s >= 10000`) with range index `ir` in `0..15` and
at least one active range, the sample does not diverge; the new range index is
`(ir + d) mod 16` for the least `d` in `1..16` whose range is active (the first
active index strictly after `ir` in cyclic order, `ir` itself only when no other
range is active), and the Retune message appended to the queue carries the
center of that range. With exactly the ranges 0, 3, 7 active, from the freshly
constructed state the messages pushed after `10001 * k` samples are, for every
`k`, the centers of ranges 3, 7, 0, 3, 7, 0, ... (ascending index order,
cyclically), so only centers of active ranges are published. -/
theorem C6_retune_goes_to_next_active_range (w : SharedMemory × JammerProcessor)
    (sm : SharedMemory) (hir : w.2.ir ≤ 15) (hs : 10000 ≤ w.2.s) (j : Nat) (hj : j < 16)
    (ha : (w.1.jammer_ranges j).active = true)
    (h037 : ∀ i, i < 16 → (sm.jammer_ranges i).active = decide (i = 0 ∨ i = 3 ∨ i = 7))
    (hq : sm.application_queue = []) :
    (∃ (w' : SharedMemory × JammerProcessor) (d : Nat),
      execute_sample w = some w' ∧ 1 ≤ d ∧ d ≤ 16 ∧ w'.2.ir = (w.2.ir + d) % 16 ∧
      (w.1.jammer_ranges w'.2.ir).active = true ∧
      (∀ e, 1 ≤ e → e < d → (w.1.jammer_ranges ((w.2.ir + e) % 16)).active = false) ∧
      (w'.2.ir = w.2.ir →
        ∀ i, i < 16 → (w.1.jammer_ranges i).active = true → i = w.2.ir) ∧
      w'.1.application_queue
        = w.1.application_queue ++ [Message.Retune (w.1.jammer_ranges w'.2.ir).center]) ∧
    (∀ k, ∃ w' : SharedMemory × JammerProcessor,
      execute (10001 * k) (sm, fresh) = some w' ∧
      w'.1.application_queue = (List.range k).map (fun n =>
        Message.Retune (sm.jammer_ranges ([3, 7, 0].getD (n % 3) 0)).center)) := by
  constructor
  · obtain ⟨r, hr⟩ :=
      next_range_some (fun i => (w.1.jammer_ranges i).active) w.2.ir j hir hj ha
    obtain ⟨d, hd1, hd2, hrd, har, hmin⟩ := next_range_spec _ 16 w.2.ir r hir hr
    refine ⟨_, d, jammer_execute_sample_expiry w r hs hr, hd1, hd2, ?_, ?_, hmin, ?_, ?_⟩
    · rw [(sweep_output_frame _).2.1]; exact hrd
    · rw [(sweep_output_frame _).2.1]; exact har
    · rw [(sweep_output_frame _).2.1]
      intro hsame i hi hai
      have hsame' : r = w.2.ir := hsame
      by_contra hne
      have := hmin ((i + 16 - w.2.ir) % 16) (by omega) (by omega)
      have e : (w.2.ir + (i + 16 - w.2.ir) % 16) % 16 = i := by omega
      rw [e, hai] at this
      exact absurd this (by decide)
    · rw [(sweep_output_frame _).2.1]
  · have hcongr : ∀ ir, next_range (fun i => (sm.jammer_ranges i).active) 16 ir
        = next_range (fun i => decide (i = 0 ∨ i = 3 ∨ i = 7)) 16 ir :=
      next_range_congr _ _ h037 16
    have key : ∀ k, ∃ w' : SharedMemory × JammerProcessor,
        execute (10001 * k) (sm, fresh) = some w' ∧ w'.2.s = 0 ∧
        w'.2.ir = [0, 3, 7].getD (k % 3) 0 ∧ w'.1.jammer_ranges = sm.jammer_ranges ∧
        w'.1.application_queue = (List.range k).map (fun n =>
          Message.Retune (sm.jammer_ranges ([3, 7, 0].getD (n % 3) 0)).center) := by
      intro k
      induction k with
      | zero => exact ⟨(sm, fresh), rfl, rfl, rfl, rfl, by simpa using hq⟩
      | succ k ih =>
        obtain ⟨w1, h1, h2, h3, h4, h5⟩ := ih
        have hnext : next_range (fun i => (w1.1.jammer_ranges i).active) 16 w1.2.ir
            = some ([3, 7, 0].getD (k % 3) 0) := by
          rw [h4, hcongr, h3]
          have hk : k % 3 = 0 ∨ k % 3 = 1 ∨ k % 3 = 2 := by omega
          rcases hk with hk | hk | hk <;> rw [hk] <;> decide
        obtain ⟨w2, g1, g2, g3, g4, -⟩ := jammer_execute_period w1 _ h2 hnext
        refine ⟨w2, ?_, g3, ?_, ?_, ?_⟩
        · rw [Nat.mul_succ, jammer_execute_add, h1, Option.some_bind]; exact g1
        · rw [g4]
          have hk : k % 3 = 0 ∨ k % 3 = 1 ∨ k % 3 = 2 := by omega
          rcases hk with hk | hk | hk
          · have : (k + 1) % 3 = 1 := by omega
            rw [hk, this]; rfl
          · have : (k + 1) % 3 = 2 := by omega
            rw [hk, this]; rfl
          · have : (k + 1) % 3 = 0 := by omega
            rw [hk, this]; rfl
        · rw [g2]; exact h4
        · rw [g2, List.range_succ, List.map_append]
          show w1.1.application_queue ++ _ = _
          rw [h5, h4]
          rfl
    intro k
    obtain ⟨w', h1, -, -, -, h5⟩ := key k
    exact ⟨w', h1, h5⟩

/-- Witness for C6: the table with ranges 0, 3, 7 active, at the first expiry
(range index 0, `s = 10000`). -/
theorem C6_retune_goes_to_next_active_range_witness :
    ((10000 : Nat) ≤ 10000 ∧ (3 : Nat) < 16 ∧ (ranges_0_3_7 3).active = true) ∧
    ∃ w' : SharedMemory × JammerProcessor,
      execute (10001 * 4) (jammer_shared ranges_0_3_7, fresh) = some w' ∧
      w'.1.application_queue = (List.range 4).map (fun n =>
        Message.Retune ((jammer_shared ranges_0_3_7).jammer_ranges
          ([3, 7, 0].getD (n % 3) 0)).center) :=
  ⟨⟨by decide, by decide, rfl⟩,
   (C6_retune_goes_to_next_active_range
      (jammer_shared ranges_0_3_7, { fresh with s := 10000 }) (jammer_shared ranges_0_3_7)
      (by decide) (by decide) 3 (by decide) rfl (fun i _ => rfl) rfl).2 4⟩

end JammerProcessor
end Baseband

namespace Baseband

/-! ## Sine-table index -/

/-- C10 (counterexample): after two samples the freshly constructed jammer has
`aphase = 70640`; the tone lookup reads `sintab[1]`, the index computed by
`(aphase & 0x03FF0000) >> 16`, whereas the top ten bits `aphase >> 22` are
`0`. -/
theorem C10_index_is_not_the_top_ten_bits :
    (JammerProcessor.execute 2 (jammer_shared ranges_0_3_7, JammerProcessor.fresh)).map
        (fun w => (w.2.aphase, w.2.sample)) = some (70640, sintab_at 1) ∧
    sin_index 70640 = 1 ∧ 70640 >>> 22 = 0 ∧ sin_index 70640 ≠ 70640 >>> 22 := by
  decide

/-- C10 (amended): at every sine-table lookup of the transmit synthesizers the
index is bits 16..25 of the 32-bit accumulator, `(x >> 16) mod 1024` (so it is
below 1024): the tone lookup from `aphase` and the I/Q lookups from `sphase`
and `phase`, for `LCRFSKProcessor` after any sample and for `JammerProcessor`
after the sweep/FM stage of any sample. -/
theorem C10_table_index_is_bits_16_to_25 (w : SharedMemory × LCRFSKProcessor)
    (p : JammerProcessor) :
    (∀ x : Nat, sin_index x = (x >>> 16) % 1024 ∧ sin_index x < 1024) ∧
    (LCRFSKProcessor.execute_sample w).2.sample
      = sintab_at (((LCRFSKProcessor.execute_sample w).2.aphase >>> 16) % 1024) ∧
    (LCRFSKProcessor.execute_sample w).2.re
      = sintab_at (((LCRFSKProcessor.execute_sample w).2.sphase >>> 16) % 1024) ∧
    (LCRFSKProcessor.execute_sample w).2.im
      = sintab_at (((LCRFSKProcessor.execute_sample w).2.phase >>> 16) % 1024) ∧
    (JammerProcessor.sweep_output p).sample
      = sintab_at (((JammerProcessor.sweep_output p).aphase >>> 16) % 1024) ∧
    (JammerProcessor.sweep_output p).re
      = sintab_at (((JammerProcessor.sweep_output p).sphase >>> 16) % 1024) ∧
    (JammerProcessor.sweep_output p).im
      = sintab_at (((JammerProcessor.sweep_output p).phase >>> 16) % 1024) := by
  refine ⟨fun x => ⟨sin_index_eq x, ?_⟩, ?_, ?_, ?_, ?_, ?_, ?_⟩
  · rw [sin_index_eq]; exact Nat.mod_lt _ (by decide)
  all_goals simp only [← sin_index_eq, LCRFSKProcessor.execute_sample,
    LCRFSKProcessor.fm_output, JammerProcessor.sweep_output]

end Baseband

namespace Baseband

/-! ## Phase accumulation -/

theorem to_u32_cast (x : Int) : ((to_u32 x : Nat) : Int) = x % 4294967296 := by
  unfold to_u32
  exact Int.toNat_of_nonneg (Int.emod_nonneg x (by decide))

theorem to_u32_of_lt (p : Nat) (hp : p < 4294967296) : to_u32 (p : Int) = p := by
  have h : ((to_u32 (p : Int) : Nat) : Int) = (p : Int) := by
    rw [to_u32_cast]
    exact Int.emod_eq_of_lt (by omega) (by omega)
  exact Int.ofNat.inj h

theorem to_u32_congr (x y : Int) (h : x % 4294967296 = y % 4294967296) :
    to_u32 x = to_u32 y := by
  unfold to_u32
  rw [h]

/-- An unsigned accumulation `(a + m) mod 2^32` is `accumulate` with the
increment `m`. -/
theorem accumulate_nat (a m : Nat) : accumulate (m : Int) a = (a + m) % 4294967296 := by
  have h : ((accumulate (m : Int) a : Nat) : Int) = (((a + m) % 4294967296 : Nat) : Int) := by
    unfold accumulate
    rw [to_u32_cast]
    simp
  exact Int.ofNat.inj h

/-- After `n` accumulations of `k` the accumulator holds the start value plus
`n * k`, reduced modulo `2^32`. -/
theorem accumulate_n_eq (k : Int) (n p : Nat) (hp : p < 4294967296) :
    accumulate_n k n p = to_u32 ((p : Int) + (n : Int) * k) := by
  induction n with
  | zero => simp [accumulate_n, to_u32_of_lt p hp]
  | succ n ih =>
    rw [accumulate_n, ih]
    unfold accumulate
    apply to_u32_congr
    rw [to_u32_cast, Int.emod_add_emod]
    congr 1
    push_cast
    ring

/-- C11: phase accumulator wrap law. For every 32-bit accumulator value `p`,
every increment `k` (of either sign) and every count `n` such that `n * k` is a
multiple of `2^32`, `n` accumulations of `k` with 32-bit wraparound bring the
accumulator back to `p`, so the sine-table index `(acc & 0x03FF0000) >> 16` is
the index of the start value. `accumulate` is the accumulation of the source:
the FM stages compute `phase = phase + frq`, the tone accumulator
`aphase += increment`. -/
theorem C11_phase_accumulator_wraps (p n : Nat) (k : Int) (hp : p < 4294967296)
    (hk : (4294967296 : Int) ∣ (n : Int) * k) :
    sin_index (accumulate_n k n p) = sin_index p ∧
    accumulate_n k n p = p ∧
    (∀ (sm : SharedMemory) (q : LCRFSKProcessor),
      (LCRFSKProcessor.fm_output sm q).phase
        = accumulate (LCRFSKProcessor.fm_output sm q).frq q.phase) ∧
    (∀ a m : Nat, (a + m) % 4294967296 = accumulate (m : Int) a) := by
  have h : accumulate_n k n p = p := by
    rw [accumulate_n_eq k n p hp]
    have e : ((p : Int) + (n : Int) * k) % 4294967296 = (p : Int) % 4294967296 := by
      obtain ⟨c, hc⟩ := hk
      rw [hc, Int.mul_comm, Int.add_mul_emod_self]
    rw [to_u32_congr _ _ e, to_u32_of_lt p hp]
  refine ⟨by rw [h], h, ?_, ?_⟩
  · intro sm q
    simp only [LCRFSKProcessor.fm_output, accumulate]
  · intro a m
    rw [accumulate_nat]

/-- Witness for C11: four accumulations of `2^30` from the value `0x12345678`. -/
theorem C11_phase_accumulator_wraps_witness :
    ((0x12345678 : Nat) < 4294967296 ∧ (4294967296 : Int) ∣ ((4 : Nat) : Int) * 1073741824) ∧
    sin_index (accumulate_n 1073741824 4 0x12345678) = sin_index 0x12345678 :=
  ⟨⟨by decide, by decide⟩,
   (C11_phase_accumulator_wraps 0x12345678 4 1073741824 (by decide) (by decide)).1⟩

end Baseband

namespace Baseband

/-! ## Tone accumulator, quadrature offset, sine table -/

theorem bit_boundary_tone (w : SharedMemory × LCRFSKProcessor) :
    (LCRFSKProcessor.bit_boundary w).2.aphase = w.2.aphase ∧
    (LCRFSKProcessor.bit_boundary w).1.afsk_phase_inc_mark = w.1.afsk_phase_inc_mark ∧
    (LCRFSKProcessor.bit_boundary w).1.afsk_phase_inc_space = w.1.afsk_phase_inc_space := by
  simp only [LCRFSKProcessor.bit_boundary, LCRFSKProcessor.frame_bit]
  split_ifs <;> simp

/-- After a bit boundary `cur_bit` is `0` or `1`. -/
theorem bit_boundary_cur_bit_le (w : SharedMemory × LCRFSKProcessor) :
    (LCRFSKProcessor.bit_boundary w).2.cur_bit ≤ 1 := by
  simp only [LCRFSKProcessor.bit_boundary, LCRFSKProcessor.frame_bit]
  split_ifs <;> simp only [Nat.and_one_is_mod] <;> omega

/-- C16: on a sample that is a symbol tick (`s >= 9` on entry) the tone
accumulator `aphase` advances, modulo `2^32`, by `afsk_phase_inc_mark` when the
current bit after the tick's bit-boundary update (if any) is non-zero, and by
`afsk_phase_inc_space` when it is `0`; on every other sample `aphase` is
unchanged. A bit written by a bit boundary is `0` or `1`, so non-zero means
`1`. -/
theorem C16_tone_advances_by_mark_or_space (w : SharedMemory × LCRFSKProcessor) :
    (LCRFSKProcessor.execute_sample w).2.aphase =
      (if 9 ≤ w.2.s then
        (if (LCRFSKProcessor.execute_sample w).2.cur_bit ≠ 0 then
          (w.2.aphase + w.1.afsk_phase_inc_mark) % 4294967296
        else (w.2.aphase + w.1.afsk_phase_inc_space) % 4294967296)
      else w.2.aphase) ∧
    (LCRFSKProcessor.bit_boundary w).2.cur_bit ≤ 1 := by
  refine ⟨?_, bit_boundary_cur_bit_le w⟩
  by_cases hs : 9 ≤ w.2.s
  · have hb := bit_boundary_tone (w.1, { w.2 with s := 0 })
    by_cases hc : w.1.afsk_samples_per_bit ≤ w.2.sample_count
    · simp only [LCRFSKProcessor.execute_sample, LCRFSKProcessor.symbol_tick,
        LCRFSKProcessor.fm_output, hs, hc, ge_iff_le, if_true, hb.1, hb.2.1, hb.2.2]
    · simp only [LCRFSKProcessor.execute_sample, LCRFSKProcessor.symbol_tick,
        LCRFSKProcessor.fm_output, hs, hc, ge_iff_le, if_true, if_false]
  · simp only [LCRFSKProcessor.execute_sample, LCRFSKProcessor.fm_output, hs, ge_iff_le,
      if_false]

set_option maxRecDepth 100000 in
/-- C18 (counterexample): the first sample of the freshly constructed LCR/FSK
generator. The output accumulator `phase` is `0`, the offset accumulator
`sphase` is `2^24 = 16777216`, not `2^30`, and the real component is
`sintab[256] = 127`, whereas the entry indexed from `(phase + 2^30) mod 2^32`
is `sintab[0] = 0`. -/
theorem C18_quarter_offset_is_not_2_pow_30 :
    (LCRFSKProcessor.execute 1
      (lcr_shared [0x41, 0] 0 353205 647542 500 0, LCRFSKProcessor.fresh)).2.phase = 0 ∧
    (LCRFSKProcessor.execute 1
      (lcr_shared [0x41, 0] 0 353205 647542 500 0, LCRFSKProcessor.fresh)).2.sphase
        = 16777216 ∧
    (LCRFSKProcessor.execute 1
      (lcr_shared [0x41, 0] 0 353205 647542 500 0, LCRFSKProcessor.fresh)).2.re = 127 ∧
    sintab_at (sin_index ((0 + 2 ^ 30) % 2 ^ 32)) = 0 := by
  decide

/-- C18 (amended): in both transmit synthesizers the offset added to the output
phase accumulator before indexing the real component is `256 << 16 = 2^24`: the
real component is the table entry indexed from `sphase = (phase + 2^24) mod
2^32` and the imaginary component the entry indexed from `phase`. -/
theorem C18_quarter_offset_is_2_pow_24 (sm : SharedMemory) (q : LCRFSKProcessor)
    (p : JammerProcessor) :
    ((256 : Nat) <<< 16 = 2 ^ 24) ∧
    (LCRFSKProcessor.fm_output sm q).sphase
      = (2 ^ 24 + (LCRFSKProcessor.fm_output sm q).phase) % 2 ^ 32 ∧
    (LCRFSKProcessor.fm_output sm q).re
      = sintab_at (sin_index (LCRFSKProcessor.fm_output sm q).sphase) ∧
    (LCRFSKProcessor.fm_output sm q).im
      = sintab_at (sin_index (LCRFSKProcessor.fm_output sm q).phase) ∧
    (JammerProcessor.sweep_output p).sphase
      = (2 ^ 24 + (JammerProcessor.sweep_output p).phase) % 2 ^ 32 ∧
    (JammerProcessor.sweep_output p).re
      = sintab_at (sin_index (JammerProcessor.sweep_output p).sphase) ∧
    (JammerProcessor.sweep_output p).im
      = sintab_at (sin_index (JammerProcessor.sweep_output p).phase) := by
  have e24 : (256 : Nat) <<< 16 = 2 ^ 24 := by decide
  have e32 : (4294967296 : Nat) = 2 ^ 32 := by decide
  refine ⟨e24, ?_, ?_, ?_, ?_, ?_, ?_⟩ <;>
    simp only [LCRFSKProcessor.fm_output, JammerProcessor.sweep_output, e24, e32]


theorem sintab_length : sintab.length = 1024 := by
  decide!

theorem sintab_half_turn : sintab.rotate 512 = sintab.map (fun x => -x) := by
  decide!

theorem sintab_range : ∀ x ∈ sintab, -127 ≤ x ∧ x ≤ 127 := by
  decide!

/-- C19: the table `sintab` has exactly 1024 entries; they form one full
odd-symmetric cycle: `sintab[0] = 0`, `sintab[256] = 127`, and for every `i` in
`0..1023`, `sintab[(i + 512) mod 1024] = -sintab[i]`; every entry lies in
`-127..127`. -/
theorem C19_sintab_is_one_odd_symmetric_cycle :
    sintab.length = 1024 ∧ sintab_at 0 = 0 ∧ sintab_at 256 = 127 ∧
    (∀ i < 1024, sintab_at ((i + 512) % 1024) = - sintab_at i) ∧
    (∀ i < 1024, -127 ≤ sintab_at i ∧ sintab_at i ≤ 127) := by
  refine ⟨sintab_length, by decide!, by decide!, ?_, ?_⟩
  · intro i hi
    have hl : i < sintab.length := by rw [sintab_length]; exact hi
    have h1 : (sintab.rotate 512)[i]? = sintab[(i + 512) % sintab.length]? :=
      List.getElem?_rotate hl
    rw [sintab_half_turn, List.getElem?_map, sintab_length] at h1
    unfold sintab_at
    rw [List.getD_eq_getElem?_getD, List.getD_eq_getElem?_getD, ← h1]
    cases sintab[i]? <;> simp
  · intro i hi
    have hl : i < sintab.length := by rw [sintab_length]; exact hi
    unfold sintab_at
    rw [List.getD_eq_getElem sintab 0 hl]
    exact sintab_range _ (List.getElem_mem hl)

end Baseband

namespace Baseband

/-! ## After completion; duration versus sweep -/

set_option maxRecDepth 100000 in
/-- C12 (failing input): buffer `[0x41, 0x00]`, `afsk_repeat = 0`, one symbol tick
per bit. Completion is signalled at sample 110 with `bit_pos = 1`,
`byte_pos = 1`, `cur_bit = 0`. The bit-boundary block keeps running: ten
samples later `bit_pos` is `2`, and at sample 200 the framing state is
`bit_pos = 0`, `byte_pos = 2`, `cur_bit = 1`. -/
theorem C12_framing_runs_on_after_completion :
    (LCRFSKProcessor.execute 110
      (lcr_shared [0x41, 0] 0 353205 647542 500 0, LCRFSKProcessor.fresh)).1.afsk_transmit_done
        = true ∧
    (LCRFSKProcessor.execute 110
      (lcr_shared [0x41, 0] 0 353205 647542 500 0, LCRFSKProcessor.fresh)).1.application_queue
        = [Message.TXDone 0] ∧
    (LCRFSKProcessor.execute 110
      (lcr_shared [0x41, 0] 0 353205 647542 500 0, LCRFSKProcessor.fresh)).1.afsk_repeat = 0 ∧
    ((LCRFSKProcessor.execute 110
        (lcr_shared [0x41, 0] 0 353205 647542 500 0, LCRFSKProcessor.fresh)).2.bit_pos,
     (LCRFSKProcessor.execute 110
        (lcr_shared [0x41, 0] 0 353205 647542 500 0, LCRFSKProcessor.fresh)).2.byte_pos,
     (LCRFSKProcessor.execute 110
        (lcr_shared [0x41, 0] 0 353205 647542 500 0, LCRFSKProcessor.fresh)).2.cur_bit)
      = (1, 1, 0) ∧
    ((LCRFSKProcessor.execute 120
        (lcr_shared [0x41, 0] 0 353205 647542 500 0, LCRFSKProcessor.fresh)).2.bit_pos,
     (LCRFSKProcessor.execute 120
        (lcr_shared [0x41, 0] 0 353205 647542 500 0, LCRFSKProcessor.fresh)).2.byte_pos,
     (LCRFSKProcessor.execute 120
        (lcr_shared [0x41, 0] 0 353205 647542 500 0, LCRFSKProcessor.fresh)).2.cur_bit)
      = (2, 1, 0) ∧
    ((LCRFSKProcessor.execute 200
        (lcr_shared [0x41, 0] 0 353205 647542 500 0, LCRFSKProcessor.fresh)).2.bit_pos,
     (LCRFSKProcessor.execute 200
        (lcr_shared [0x41, 0] 0 353205 647542 500 0, LCRFSKProcessor.fresh)).2.byte_pos,
     (LCRFSKProcessor.execute 200
        (lcr_shared [0x41, 0] 0 353205 647542 500 0, LCRFSKProcessor.fresh)).2.cur_bit)
      = (0, 2, 1) := by
  decide

namespace JammerProcessor

/-- A sample at which the duration counter has reached its threshold while the
range-advance loop never exits. -/
theorem jammer_execute_sample_diverges (w : SharedMemory × JammerProcessor)
    (h : 10000 ≤ w.2.s)
    (hr : next_range (fun i => (w.1.jammer_ranges i).active) 16 w.2.ir = none) :
    execute_sample w = none := by
  simp only [execute_sample, duration_expiry, h, hr, ge_iff_le, if_true]

/-- One sample keeps two states in step that agree on the shared memory, the
duration counter and the range index. -/
theorem jammer_sample_in_step (v1 v2 : SharedMemory × JammerProcessor)
    (h1 : v1.1 = v2.1) (h2 : v1.2.s = v2.2.s) (h3 : v1.2.ir = v2.2.ir) :
    (execute_sample v1 = none ∧ execute_sample v2 = none) ∨
    ∃ u1 u2 : SharedMemory × JammerProcessor,
      execute_sample v1 = some u1 ∧ execute_sample v2 = some u2 ∧
      u1.1 = u2.1 ∧ u1.2.s = u2.2.s ∧ u1.2.ir = u2.2.ir := by
  by_cases hlt : v1.2.s < 10000
  · right
    refine ⟨_, _, jammer_execute_sample_idle v1 hlt,
      jammer_execute_sample_idle v2 (by omega), h1, ?_, ?_⟩
    · rw [(sweep_output_frame _).1, (sweep_output_frame _).1]
      show v1.2.s + 1 = v2.2.s + 1
      rw [h2]
    · rw [(sweep_output_frame _).2.1, (sweep_output_frame _).2.1]
      exact h3
  · cases hr : next_range (fun i => (v1.1.jammer_ranges i).active) 16 v1.2.ir with
    | none =>
      left
      refine ⟨jammer_execute_sample_diverges v1 (by omega) hr,
        jammer_execute_sample_diverges v2 (by omega) ?_⟩
      rw [← h1, ← h3]; exact hr
    | some r =>
      right
      have hr2 : next_range (fun i => (v2.1.jammer_ranges i).active) 16 v2.2.ir = some r := by
        rw [← h1, ← h3]; exact hr
      refine ⟨_, _, jammer_execute_sample_expiry v1 r (by omega) hr,
        jammer_execute_sample_expiry v2 r (by omega) hr2, ?_, ?_, ?_⟩
      · simp only [h1]
      · rw [(sweep_output_frame _).1, (sweep_output_frame _).1]
      · rw [(sweep_output_frame _).2.1, (sweep_output_frame _).2.1]

/-- Runs of any length stay in step. -/
theorem jammer_runs_in_step (n : Nat) (v1 v2 : SharedMemory × JammerProcessor)
    (h1 : v1.1 = v2.1) (h2 : v1.2.s = v2.2.s) (h3 : v1.2.ir = v2.2.ir) :
    (execute n v1 = none ∧ execute n v2 = none) ∨
    ∃ u1 u2 : SharedMemory × JammerProcessor,
      execute n v1 = some u1 ∧ execute n v2 = some u2 ∧
      u1.1 = u2.1 ∧ u1.2.s = u2.2.s ∧ u1.2.ir = u2.2.ir := by
  induction n with
  | zero => exact Or.inr ⟨v1, v2, rfl, rfl, h1, h2, h3⟩
  | succ n ih =>
    rcases ih with ⟨e1, e2⟩ | ⟨u1, u2, e1, e2, g1, g2, g3⟩
    · left
      simp only [execute, e1, e2, and_self]
    · simp only [execute, e1, e2]
      exact jammer_sample_in_step u1 u2 g1 g2 g3

/-- C13 (counterexample): a table with no active range. The sample entered with
`s = 10000` never completes (the range-advance loop has no exit), so it pushes
no Retune message; from the freshly constructed state this is sample 10001. -/
theorem C13_threshold_sample_pushes_nothing_without_active_range :
    execute_sample
      (jammer_shared (fun _ => { active := false, center := 0, width := 0, duration := 0 }),
       { fresh with s := 10000 }) = none ∧
    execute 10001
      (jammer_shared (fun _ => { active := false, center := 0, width := 0, duration := 0 }),
       fresh) = none := by
  refine ⟨jammer_execute_sample_diverges _ (Nat.le_refl 10000)
    (next_range_all_inactive _ (fun _ _ => rfl) 16 _), ?_⟩
  obtain ⟨w1, h1, h2, h3, h4⟩ := jammer_execute_idle_run 10000
    (jammer_shared (fun _ => { active := false, center := 0, width := 0, duration := 0 }),
     fresh) (Nat.le_refl _)
  have hs : 10000 ≤ w1.2.s := by rw [h3]; exact Nat.le_refl _
  have hr : next_range (fun i => (w1.1.jammer_ranges i).active) 16 w1.2.ir = none := by
    rw [h2]
    exact next_range_all_inactive _ (fun _ _ => rfl) 16 _
  show execute (10000 + 1) _ = none
  rw [execute, h1]
  exact jammer_execute_sample_diverges w1 hs hr

/-- C13 (amended): the duration domain of the jammer does not depend on the
sweep domain. For every range table, two runs over the same shared memory that
start with the same duration counter `s` and range index `ir`, and otherwise
arbitrary processor members (sweep counter `r`, accumulators `aphase` and
`phase`, bandwidth `jammer_bw`, ...), have after every number `n` of samples
the same queue of pushed messages, the same `s` and the same `ir` (or have both
stopped in a loop that never exits), so the Retune messages are the same and
are pushed at the same samples. A sample entered with `s < 10000` leaves the
queue as it is; a sample entered with `s >= 10000` appends exactly one Retune
message, the center of the range the advance loop returns, when the loop exits,
and the loop exits whenever a range is active and `ir` is in `0..15`. -/
theorem C13_duration_independent_of_sweep (sm : SharedMemory) (p q : JammerProcessor)
    (hs : p.s = q.s) (hir : p.ir = q.ir) (n : Nat) :
    (execute n (sm, p)).map (fun w => (w.1.application_queue, w.2.s, w.2.ir))
      = (execute n (sm, q)).map (fun w => (w.1.application_queue, w.2.s, w.2.ir)) ∧
    (∀ w : SharedMemory × JammerProcessor,
      (execute_sample w).map (fun u => u.1.application_queue) =
        if 10000 ≤ w.2.s then
          (next_range (fun i => (w.1.jammer_ranges i).active) 16 w.2.ir).map
            (fun r => w.1.application_queue ++ [Message.Retune (w.1.jammer_ranges r).center])
        else some w.1.application_queue) ∧
    (∀ (w : SharedMemory × JammerProcessor) (j : Nat), w.2.ir ≤ 15 → j < 16 →
      (w.1.jammer_ranges j).active = true →
      ∃ (u : SharedMemory × JammerProcessor) (r : Nat), execute_sample w = some u ∧
        u.1.application_queue =
          if 10000 ≤ w.2.s then
            w.1.application_queue ++ [Message.Retune (w.1.jammer_ranges r).center]
          else w.1.application_queue) := by
  refine ⟨?_, ?_, ?_⟩
  · rcases jammer_runs_in_step n (sm, p) (sm, q) rfl hs hir with
      ⟨e1, e2⟩ | ⟨u1, u2, e1, e2, g1, g2, g3⟩
    · rw [e1, e2]
    · rw [e1, e2, Option.map_some', Option.map_some', g1, g2, g3]
  · intro w
    by_cases hlt : w.2.s < 10000
    · have h1 : ¬ 10000 ≤ w.2.s := by omega
      rw [jammer_execute_sample_idle w hlt, if_neg h1, Option.map_some']
    · have h1 : 10000 ≤ w.2.s := by omega
      rw [if_pos h1]
      cases hr : next_range (fun i => (w.1.jammer_ranges i).active) 16 w.2.ir with
      | none => rw [jammer_execute_sample_diverges w h1 hr]; rfl
      | some r => rw [jammer_execute_sample_expiry w r h1 hr]; rfl
  · intro w j hw hj ha
    by_cases hlt : w.2.s < 10000
    · have h1 : ¬ 10000 ≤ w.2.s := by omega
      exact ⟨_, 0, jammer_execute_sample_idle w hlt, by rw [if_neg h1]⟩
    · have h1 : 10000 ≤ w.2.s := by omega
      obtain ⟨r, hr⟩ :=
        next_range_some (fun i => (w.1.jammer_ranges i).active) w.2.ir j hw hj ha
      exact ⟨_, r, jammer_execute_sample_expiry w r h1 hr, by rw [if_pos h1]⟩

/-- Witness for C13: the freshly constructed jammer and one whose sweep counter,
accumulators and bandwidth differ, over the table with ranges 0, 3, 7 active,
after 12 samples. -/
theorem C13_duration_independent_of_sweep_witness :
    (fresh.s = ({ fresh with r := 55, aphase := 123456789, phase := 987654321,
                             jammer_bw := 131072 } : JammerProcessor).s ∧
     fresh.ir = ({ fresh with r := 55, aphase := 123456789, phase := 987654321,
                              jammer_bw := 131072 } : JammerProcessor).ir) ∧
    (execute 12 (jammer_shared ranges_0_3_7, fresh)).map
        (fun w => (w.1.application_queue, w.2.s, w.2.ir))
      = (execute 12 (jammer_shared ranges_0_3_7,
          { fresh with r := 55, aphase := 123456789, phase := 987654321,
                       jammer_bw := 131072 })).map
        (fun w => (w.1.application_queue, w.2.s, w.2.ir)) :=
  ⟨⟨rfl, rfl⟩,
   (C13_duration_independent_of_sweep (jammer_shared ranges_0_3_7) fresh
      { fresh with r := 55, aphase := 123456789, phase := 987654321, jammer_bw := 131072 }
      rfl rfl 12).1⟩

end JammerProcessor

end Baseband

namespace Baseband

namespace HandlerState

/-! ## Configuration handler: order of effects -/

/-- The switch either constructs nothing (no `case` for the mode) or assigns a
direction (for mode 2 the direction it already had) and constructs one
processor. -/
theorem switch_mode_cases (st : HandlerState) (mode : Int) :
    (mode ∉ supported_modes ∧ switch_mode st mode = st) ∨
    (mode ∈ supported_modes ∧ ∃ (k : ProcessorKind) (d : Direction),
      switch_mode st mode = new_processor { st with direction := d } k) := by
  by_cases h : mode ∈ supported_modes
  · right
    refine ⟨h, ?_⟩
    simp only [supported_modes, List.mem_cons, List.mem_singleton, List.not_mem_nil,
      or_false] at h
    rcases h with h | h | h | h | h | h | h | h <;> subst h <;>
      first
        | exact ⟨ProcessorKind.WidebandFMAudio, st.direction, rfl⟩
        | exact ⟨_, Direction.Receive, rfl⟩
        | exact ⟨_, Direction.Transmit, rfl⟩
  · exact Or.inl ⟨h, switch_mode_unknown st mode h⟩

/-- C14: a configuration message with a changed mode arriving while a processor
`p` is active appends to the effect log, in this order: audio mute, sample-DMA
disable, RSSI stop, then the detach (`baseband_processor = nullptr`), then the
destruction of `p`, then the rest `post`. When no processor is constructed
(after the call the reference is none) `post` is the single `dma::configure`,
so the sample DMA is not enabled. When a processor `q` is constructed, `post`
starts with its construction and installation, and `dma::enable` comes after
them (with at most an RSSI start in between), followed by RSSI stop and
`dma::configure`. -/
theorem C14_teardown_precedes_detach_precedes_destroy (st : HandlerState)
    (c : BasebandConfiguration) (p : ProcessorRef) (hp : st.baseband_processor = some p)
    (hne : c.mode ≠ st.baseband_configuration.mode) :
    ∃ post : List Effect,
      (handler st c).trace = st.trace ++
        [Effect.tx_mute, Effect.dma_disable, Effect.rssi_stop, Effect.detach, Effect.destroy p]
        ++ post ∧
      ((handler st c).baseband_processor = none →
        post = [Effect.dma_configure (handler st c).direction]) ∧
      (∀ q, (handler st c).baseband_processor = some q →
        ∃ mid : List Effect, (mid = [] ∨ mid = [Effect.rssi_start]) ∧
          post = [Effect.construct q, Effect.install q] ++ mid ++
            [Effect.dma_enable (handler st c).direction, Effect.rssi_stop,
             Effect.dma_configure (handler st c).direction]) := by
  rcases switch_mode_cases
      { direction := st.direction, baseband_processor := none,
        baseband_configuration := st.baseband_configuration, rssi_active := false,
        next_id := st.next_id,
        trace := st.trace ++ [Effect.tx_mute, Effect.dma_disable, Effect.rssi_stop,
          Effect.detach, Effect.destroy p] } c.mode with
    ⟨-, hsw⟩ | ⟨-, k, d, hsw⟩
  · refine ⟨[Effect.dma_configure st.direction], ?_, ?_, ?_⟩
    · simp [handler, hne, change_mode, hp, emit, rssi_stop, hsw]
    · intro _
      simp [handler, hne, change_mode, hp, emit, rssi_stop, hsw]
    · intro q hq
      simp [handler, hne, change_mode, hp, emit, rssi_stop, hsw] at hq
  · cases d with
    | Receive =>
      refine ⟨[Effect.construct ⟨k, st.next_id⟩, Effect.install ⟨k, st.next_id⟩,
        Effect.rssi_start, Effect.dma_enable Direction.Receive, Effect.rssi_stop,
        Effect.dma_configure Direction.Receive], ?_, ?_, ?_⟩
      · simp [handler, hne, change_mode, hp, emit, rssi_stop, rssi_start, hsw, new_processor]
      · intro hq
        simp [handler, hne, change_mode, hp, emit, rssi_stop, rssi_start, hsw,
          new_processor] at hq
      · intro q hq
        simp [handler, hne, change_mode, hp, emit, rssi_stop, rssi_start, hsw,
          new_processor] at hq
        subst hq
        refine ⟨[Effect.rssi_start], Or.inr rfl, ?_⟩
        simp [handler, hne, change_mode, hp, emit, rssi_stop, rssi_start, hsw, new_processor]
    | Transmit =>
      refine ⟨[Effect.construct ⟨k, st.next_id⟩, Effect.install ⟨k, st.next_id⟩,
        Effect.dma_enable Direction.Transmit, Effect.rssi_stop,
        Effect.dma_configure Direction.Transmit], ?_, ?_, ?_⟩
      · simp [handler, hne, change_mode, hp, emit, rssi_stop, rssi_start, hsw, new_processor]
      · intro hq
        simp [handler, hne, change_mode, hp, emit, rssi_stop, rssi_start, hsw,
          new_processor] at hq
      · intro q hq
        simp [handler, hne, change_mode, hp, emit, rssi_stop, rssi_start, hsw,
          new_processor] at hq
        subst hq
        refine ⟨[], Or.inl rfl, ?_⟩
        simp [handler, hne, change_mode, hp, emit, rssi_stop, rssi_start, hsw, new_processor]

/-- Witness for C14: mode 1 requested while mode 16 is running. -/
theorem C14_teardown_precedes_detach_precedes_destroy_witness :
    (lcr_running.baseband_processor = some { kind := ProcessorKind.LCRFSKProcessor, id := 0 } ∧
     (1 : Int) ≠ lcr_running.baseband_configuration.mode) ∧
    ∃ post : List Effect,
      (handler lcr_running { mode := 1, sampling_rate := 3072000, rest := [] }).trace =
        lcr_running.trace ++
        [Effect.tx_mute, Effect.dma_disable, Effect.rssi_stop, Effect.detach,
         Effect.destroy { kind := ProcessorKind.LCRFSKProcessor, id := 0 }]
        ++ post ∧
      ((handler lcr_running
          { mode := 1, sampling_rate := 3072000, rest := [] }).baseband_processor = none →
        post = [Effect.dma_configure
          (handler lcr_running { mode := 1, sampling_rate := 3072000, rest := [] }).direction]) ∧
      (∀ q, (handler lcr_running
          { mode := 1, sampling_rate := 3072000, rest := [] }).baseband_processor = some q →
        ∃ mid : List Effect, (mid = [] ∨ mid = [Effect.rssi_start]) ∧
          post = [Effect.construct q, Effect.install q] ++ mid ++
            [Effect.dma_enable
              (handler lcr_running { mode := 1, sampling_rate := 3072000, rest := [] }).direction,
             Effect.rssi_stop,
             Effect.dma_configure
              (handler lcr_running
                { mode := 1, sampling_rate := 3072000, rest := [] }).direction]) :=
  ⟨⟨by decide, by decide⟩,
   C14_teardown_precedes_detach_precedes_destroy lcr_running
     { mode := 1, sampling_rate := 3072000, rest := [] }
     { kind := ProcessorKind.LCRFSKProcessor, id := 0 } (by decide) (by decide)⟩

end HandlerState

end Baseband

namespace Baseband

namespace EventDispatcher

/-! ## Event dispatcher -/

theorem send_queue (d : EventDispatcher) (m : InMessage) (q : List InMessage) :
    send { d with baseband_queue := q } m = { send d m with baseband_queue := q } := by
  cases m <;> rfl

theorem send_frame (d : EventDispatcher) (m : InMessage) :
    (send d m).baseband_queue = d.baseband_queue ∧
    (send d m).log = d.log ++ [DispatchEvent.send m] := by
  cases m <;> exact ⟨rfl, rfl⟩

theorem foldl_send_log (q : List InMessage) :
    ∀ d : EventDispatcher, (q.foldl send d).log = d.log ++ q.map DispatchEvent.send := by
  induction q with
  | nil => intro d; simp
  | cons m rest ih =>
    intro d
    rw [List.foldl_cons, ih, (send_frame d m).2]
    simp

theorem foldl_send_queue (q : List InMessage) :
    ∀ (x : EventDispatcher) (l : List InMessage),
      List.foldl send { x with baseband_queue := l } q
        = { List.foldl send x q with baseband_queue := l } := by
  induction q with
  | nil => intro x l; rfl
  | cons a as ih =>
    intro x l
    rw [List.foldl_cons, List.foldl_cons, send_queue, ih]

/-- The drain loop sends the queued messages one after the other, front first,
and leaves the queue empty. -/
theorem drain_eq (q : List InMessage) :
    ∀ d : EventDispatcher, drain q d = { q.foldl send d with baseband_queue := [] } := by
  induction q with
  | nil => intro d; rfl
  | cons m rest ih =>
    intro d
    rw [drain, ih, send_queue, List.foldl_cons, foldl_send_queue]

theorem handle_spectrum_frame (d : EventDispatcher) :
    (handle_spectrum d).baseband_queue = d.baseband_queue ∧
    (handle_spectrum d).handlers = d.handlers ∧
    (handle_spectrum d).is_running = d.is_running ∧
    (handle_spectrum d).log = d.log ++
      (match d.handlers.baseband_processor with
       | some p => [DispatchEvent.update_spectrum p]
       | none => []) := by
  unfold handle_spectrum
  cases d.handlers.baseband_processor <;> simp

end EventDispatcher

end Baseband

namespace Baseband

namespace EventDispatcher

theorem handle_baseband_queue_frame (d : EventDispatcher) :
    (handle_baseband_queue d).baseband_queue = [] ∧
    (handle_baseband_queue d).handlers = (d.baseband_queue.foldl send d).handlers ∧
    (handle_baseband_queue d).log = d.log ++ d.baseband_queue.map DispatchEvent.send := by
  unfold handle_baseband_queue
  rw [drain_eq]
  exact ⟨rfl, rfl, foldl_send_log _ _⟩

theorem dispatch_eq (B S : Nat) (d : EventDispatcher) (events : Nat) :
    dispatch B S d events =
      if events &&& S ≠ 0 then
        handle_spectrum (if events &&& B ≠ 0 then handle_baseband_queue d else d)
      else (if events &&& B ≠ 0 then handle_baseband_queue d else d) := rfl

/-- C15: `dispatch` with the baseband-queue bit set pops every queued message,
front first, and passes each to `message_map.send` (the log grows by one `send`
per message, in queue order; the handlers' state is the result of sending them
in that order) and leaves the queue empty; with the bit clear nothing is popped
or sent. Only then is the spectrum bit examined: `update_spectrum` is logged
once, after the sends, when the bit is set and a processor is active after the
drain, and not at all otherwise. -/
theorem C15_dispatch_drains_then_spectrum (B S : Nat) (d : EventDispatcher) (events : Nat) :
    (dispatch B S d events).baseband_queue
      = (if events &&& B ≠ 0 then [] else d.baseband_queue) ∧
    (dispatch B S d events).handlers
      = (if events &&& B ≠ 0 then (d.baseband_queue.foldl send d).handlers else d.handlers) ∧
    (dispatch B S d events).log
      = d.log ++
        (if events &&& B ≠ 0 then d.baseband_queue.map DispatchEvent.send else []) ++
        (if events &&& S ≠ 0 then
          (match (dispatch B S d events).handlers.baseband_processor with
           | some p => [DispatchEvent.update_spectrum p]
           | none => [])
         else []) := by
  have hq := handle_baseband_queue_frame d
  rw [dispatch_eq]
  by_cases hB : events &&& B = 0 <;> by_cases hS : events &&& S = 0 <;>
    simp only [hB, hS, ne_eq, not_true_eq_false, not_false_eq_true, if_true, if_false,
      List.append_nil]
  · exact ⟨trivial, trivial, trivial⟩
  · have hsp := handle_spectrum_frame d
    exact ⟨hsp.1, hsp.2.1, by rw [hsp.2.2.2, hsp.2.1]⟩
  · exact hq
  · have hsp := handle_spectrum_frame (handle_baseband_queue d)
    exact ⟨hsp.1.trans hq.1, hsp.2.1.trans hq.2.1, by rw [hsp.2.2.2, hsp.2.1, hq.2.2]⟩

end EventDispatcher

namespace JammerProcessor

/-- C20: with at least one of the sixteen ranges active and a range index `ir`
in `0..15`, the range-advance loop exits: within sixteen iterations it returns
an index `r = (ir + d) mod 16`, `1 <= d <= 16`, that is in `0..15` and active.
Consequently, from the freshly constructed state every run of `execute`
returns, and the range index of the state it reaches is in `0..15`, so the
table is only indexed inside its sixteen entries. -/
theorem C20_range_advance_terminates (sm : SharedMemory) (ir j : Nat) (hir : ir ≤ 15)
    (hj : j < 16) (ha : (sm.jammer_ranges j).active = true) :
    (∃ r d : Nat, next_range (fun i => (sm.jammer_ranges i).active) 16 ir = some r ∧
      1 ≤ d ∧ d ≤ 16 ∧ r = (ir + d) % 16 ∧ r ≤ 15 ∧ (sm.jammer_ranges r).active = true) ∧
    (∀ n, ∃ w' : SharedMemory × JammerProcessor,
      execute n (sm, fresh) = some w' ∧ w'.2.ir ≤ 15) := by
  constructor
  · obtain ⟨r, hr⟩ := next_range_some (fun i => (sm.jammer_ranges i).active) ir j hir hj ha
    obtain ⟨d, hd1, hd2, hrd, har, -⟩ := next_range_spec _ 16 ir r hir hr
    exact ⟨r, d, hr, hd1, hd2, hrd, by omega, har⟩
  · intro n
    obtain ⟨w', fs, h1, -, h3, -, -, -⟩ :=
      jammer_execute_count (sm, fresh) rfl (Nat.zero_le 15) j hj ha n
    exact ⟨w', h1, h3⟩

/-- Witness for C20: the table with ranges 0, 3, 7 active, range index 7. -/
theorem C20_range_advance_terminates_witness :
    ((7 : Nat) ≤ 15 ∧ (3 : Nat) < 16 ∧
      ((jammer_shared ranges_0_3_7).jammer_ranges 3).active = true) ∧
    (∃ r d : Nat,
      next_range (fun i => ((jammer_shared ranges_0_3_7).jammer_ranges i).active) 16 7
        = some r ∧
      1 ≤ d ∧ d ≤ 16 ∧ r = (7 + d) % 16 ∧ r ≤ 15 ∧
      ((jammer_shared ranges_0_3_7).jammer_ranges r).active = true) :=
  ⟨⟨by decide, by decide, rfl⟩,
   (C20_range_advance_terminates (jammer_shared ranges_0_3_7) 7 3 (by decide) (by decide)
      rfl).1⟩

end JammerProcessor

end Baseband

namespace Baseband

/-! ## Quadrature of the output -/

/-- Adding `256 << 16` to a phase, in 32-bit arithmetic, moves the table index
by 256 places modulo 1024. -/
theorem sin_index_quarter (x : Nat) :
    sin_index (((256 <<< 16) + x) % 4294967296) = (sin_index x + 256) % 1024 := by
  have h : (256 <<< 16 : Nat) = 16777216 := by decide
  rw [sin_index_eq, sin_index_eq, Nat.shiftRight_eq_div_pow, Nat.shiftRight_eq_div_pow, h]
  omega

/-- C24: in both generators the table index of the real component is the index
of the imaginary component plus 256, modulo 1024. For every value `x` of the
phase accumulator, the index taken from `x + (256 << 16)` (32-bit sum) is
`(j + 256) mod 1024` with `j = (x >> 16) mod 1024` the index taken from `x`; and
after the output stage of a sample of `LCRFSKProcessor` (from any state `p`, and
so after any whole sample from any state `w`) and of `JammerProcessor` (from any
state `q`), `im = sintab[j]` and `re = sintab[(j + 256) mod 1024]` with
`j = (phase >> 16) mod 1024`. -/
theorem C24_real_index_is_imaginary_index_plus_256 (sm : SharedMemory) (p : LCRFSKProcessor)
    (w : SharedMemory × LCRFSKProcessor) (q : JammerProcessor) :
    (∀ x : Nat, sin_index x = (x >>> 16) % 1024 ∧
      sin_index (((256 <<< 16) + x) % 4294967296) = ((x >>> 16) % 1024 + 256) % 1024) ∧
    ((LCRFSKProcessor.fm_output sm p).im
        = sintab_at (((LCRFSKProcessor.fm_output sm p).phase >>> 16) % 1024) ∧
     (LCRFSKProcessor.fm_output sm p).re
        = sintab_at ((((LCRFSKProcessor.fm_output sm p).phase >>> 16) % 1024 + 256) % 1024)) ∧
    ((LCRFSKProcessor.execute_sample w).2.im
        = sintab_at (((LCRFSKProcessor.execute_sample w).2.phase >>> 16) % 1024) ∧
     (LCRFSKProcessor.execute_sample w).2.re
        = sintab_at ((((LCRFSKProcessor.execute_sample w).2.phase >>> 16) % 1024 + 256)
            % 1024)) ∧
    ((JammerProcessor.sweep_output q).im
        = sintab_at (((JammerProcessor.sweep_output q).phase >>> 16) % 1024) ∧
     (JammerProcessor.sweep_output q).re
        = sintab_at ((((JammerProcessor.sweep_output q).phase >>> 16) % 1024 + 256) % 1024)) := by
  have lcr : ∀ (sm : SharedMemory) (p : LCRFSKProcessor),
      (LCRFSKProcessor.fm_output sm p).im
        = sintab_at (((LCRFSKProcessor.fm_output sm p).phase >>> 16) % 1024) ∧
      (LCRFSKProcessor.fm_output sm p).re
        = sintab_at ((((LCRFSKProcessor.fm_output sm p).phase >>> 16) % 1024 + 256) % 1024) := by
    intro sm p
    simp only [LCRFSKProcessor.fm_output, sin_index_quarter]
    simp only [sin_index_eq, and_self]
  refine ⟨fun x => ⟨sin_index_eq x, ?_⟩, lcr sm p, ?_, ?_⟩
  · rw [sin_index_quarter, sin_index_eq]
  · exact lcr _ _
  · simp only [JammerProcessor.sweep_output, sin_index_quarter]
    simp only [sin_index_eq, and_self]

end Baseband

namespace Baseband

namespace HandlerState

/-! ## Configuration handler: the processor follows the stored mode -/

/-- The class selected for each mode, as a table. -/
theorem selected_kind_table (mode : Int) :
    selected_kind mode =
      if mode = 0 then some ProcessorKind.NarrowbandAMAudio
      else if mode = 1 then some ProcessorKind.NarrowbandFMAudio
      else if mode = 2 then some ProcessorKind.WidebandFMAudio
      else if mode = 3 then some ProcessorKind.AISProcessor
      else if mode = 4 then some ProcessorKind.WidebandSpectrum
      else if mode = 5 then some ProcessorKind.TPMSProcessor
      else if mode = 16 then some ProcessorKind.LCRFSKProcessor
      else if mode = 18 then some ProcessorKind.JammerProcessor
      else none := by
  unfold selected_kind switch_mode
  split_ifs <;> rfl

/-- A class is selected exactly for the modes that have a `case`. -/
theorem selected_kind_isSome (mode : Int) :
    (selected_kind mode).isSome = true ↔ mode ∈ supported_modes := by
  rw [selected_kind_table]
  simp only [supported_modes, List.mem_cons, List.mem_singleton, List.not_mem_nil, or_false]
  split_ifs <;> simp [*]

/-- Run with no processor installed, the switch installs a processor of the
selected class, or none. -/
theorem switch_mode_kind (st : HandlerState) (mode : Int) (h : st.baseband_processor = none) :
    (switch_mode st mode).baseband_processor.map ProcessorRef.kind = selected_kind mode := by
  rw [selected_kind_table]
  unfold switch_mode
  split_ifs <;> first | rfl | simp [h]

/-- After the body of the mode-change branch the installed processor is of the
class selected for the new mode, or none. -/
theorem change_mode_kind (st : HandlerState) (mode : Int) :
    (change_mode st mode).baseband_processor.map ProcessorRef.kind = selected_kind mode := by
  have key : ∀ s : HandlerState, s.baseband_processor = none →
      (if (switch_mode s mode).baseband_processor.isSome then
        HandlerState.rssi_stop
          (HandlerState.emit
            (if (switch_mode s mode).direction = Direction.Receive
              then (switch_mode s mode).rssi_start else switch_mode s mode)
            (Effect.dma_enable
              (if (switch_mode s mode).direction = Direction.Receive
                then (switch_mode s mode).rssi_start else switch_mode s mode).direction))
       else switch_mode s mode).baseband_processor.map ProcessorRef.kind
        = selected_kind mode := by
    intro s hs
    rw [← switch_mode_kind s mode hs]
    split_ifs <;> rfl
  cases hp : st.baseband_processor with
  | none =>
    simp only [change_mode, hp, Option.isSome_none, Bool.false_eq_true, if_false]
    exact key _ rfl
  | some p =>
    simp only [change_mode, hp, Option.isSome_some, if_true, emit, rssi_stop]
    exact key _ rfl

/-- One configuration message: afterwards the installed processor is of the
class selected for the stored mode, provided this held before. -/
theorem handler_kind (st : HandlerState) (c : BasebandConfiguration)
    (h : st.baseband_processor.map ProcessorRef.kind
      = selected_kind st.baseband_configuration.mode) :
    (handler st c).baseband_processor.map ProcessorRef.kind
      = selected_kind (handler st c).baseband_configuration.mode := by
  by_cases hm : c.mode = st.baseband_configuration.mode
  · rw [handler_same_mode st c hm]
    simp only [hm, h]
  · have e1 : (handler st c).baseband_processor = (change_mode st c.mode).baseband_processor := by
      simp [handler, hm, emit]
    have e2 : (handler st c).baseband_configuration = c := rfl
    rw [e1, e2, change_mode_kind]

theorem foldl_handler_kind (cs : List BasebandConfiguration) (st : HandlerState)
    (h : st.baseband_processor.map ProcessorRef.kind
      = selected_kind st.baseband_configuration.mode) :
    (cs.foldl handler st).baseband_processor.map ProcessorRef.kind
      = selected_kind (cs.foldl handler st).baseband_configuration.mode := by
  induction cs generalizing st with
  | nil => exact h
  | cons c cs ih => exact ih (handler st c) (handler_kind st c h)

/-- C23: from any state with no active processor and a stored mode outside
`{0, 1, 2, 3, 4, 5, 16, 18}`, after every finite sequence `cs` of configuration
messages a processor is present if and only if the stored mode is in that set,
and a present processor `p` is of the class the `switch` selects for the stored
mode: AM for 0, narrowband FM for 1, wideband FM for 2, AIS for 3, wideband
spectrum for 4, TPMS for 5, LCR/FSK for 16, jammer for 18. -/
theorem C23_processor_matches_stored_mode (st : HandlerState)
    (cs : List BasebandConfiguration) (h0 : st.baseband_processor = none)
    (hm : st.baseband_configuration.mode ∉ supported_modes) :
    ((cs.foldl handler st).baseband_processor.isSome = true ↔
      (cs.foldl handler st).baseband_configuration.mode ∈ supported_modes) ∧
    (∀ p : ProcessorRef, (cs.foldl handler st).baseband_processor = some p →
      selected_kind (cs.foldl handler st).baseband_configuration.mode = some p.kind ∧
      some p.kind =
        (if (cs.foldl handler st).baseband_configuration.mode = 0
          then some ProcessorKind.NarrowbandAMAudio
        else if (cs.foldl handler st).baseband_configuration.mode = 1
          then some ProcessorKind.NarrowbandFMAudio
        else if (cs.foldl handler st).baseband_configuration.mode = 2
          then some ProcessorKind.WidebandFMAudio
        else if (cs.foldl handler st).baseband_configuration.mode = 3
          then some ProcessorKind.AISProcessor
        else if (cs.foldl handler st).baseband_configuration.mode = 4
          then some ProcessorKind.WidebandSpectrum
        else if (cs.foldl handler st).baseband_configuration.mode = 5
          then some ProcessorKind.TPMSProcessor
        else if (cs.foldl handler st).baseband_configuration.mode = 16
          then some ProcessorKind.LCRFSKProcessor
        else if (cs.foldl handler st).baseband_configuration.mode = 18
          then some ProcessorKind.JammerProcessor
        else none)) := by
  have init : st.baseband_processor.map ProcessorRef.kind
      = selected_kind st.baseband_configuration.mode := by
    have hn : ¬ ((selected_kind st.baseband_configuration.mode).isSome = true) :=
      fun hs => hm ((selected_kind_isSome _).mp hs)
    rw [h0]
    cases hk : selected_kind st.baseband_configuration.mode with
    | none => rfl
    | some k => rw [hk] at hn; exact absurd rfl hn
  have inv := foldl_handler_kind cs st init
  refine ⟨?_, ?_⟩
  · rw [← selected_kind_isSome, ← inv]
    cases (cs.foldl handler st).baseband_processor <;> simp
  · intro p hp
    rw [hp] at inv
    have e : selected_kind (cs.foldl handler st).baseband_configuration.mode = some p.kind :=
      inv.symm
    exact ⟨e, by rw [← e, selected_kind_table]⟩

/-- Witness for C23: from the start-up state, the messages with modes 16, 16, 7,
18 in this order. -/
theorem C23_processor_matches_stored_mode_witness :
    (boot_state.baseband_processor = none ∧
      boot_state.baseband_configuration.mode ∉ supported_modes) ∧
    ((([{ mode := 16, sampling_rate := 2280000, rest := [] },
        { mode := 16, sampling_rate := 1536000, rest := [] },
        { mode := 7, sampling_rate := 0, rest := [] },
        { mode := 18, sampling_rate := 15360000, rest := [] }]
        : List BasebandConfiguration).foldl handler boot_state).baseband_processor.isSome = true ↔
      (([{ mode := 16, sampling_rate := 2280000, rest := [] },
        { mode := 16, sampling_rate := 1536000, rest := [] },
        { mode := 7, sampling_rate := 0, rest := [] },
        { mode := 18, sampling_rate := 15360000, rest := [] }]
        : List BasebandConfiguration).foldl handler boot_state).baseband_configuration.mode
        ∈ supported_modes) :=
  ⟨⟨rfl, by decide⟩,
   (C23_processor_matches_stored_mode boot_state
      [{ mode := 16, sampling_rate := 2280000, rest := [] },
       { mode := 16, sampling_rate := 1536000, rest := [] },
       { mode := 7, sampling_rate := 0, rest := [] },
       { mode := 18, sampling_rate := 15360000, rest := [] }] rfl (by decide)).1⟩

end HandlerState

end Baseband

namespace Baseband

namespace LCRFSKProcessor

/-! ## LCR/FSK generator: where the bit boundaries fall -/

/-- The timing counters after any number `n` of samples: `s` counts the samples
since the last symbol tick and `sample_count` the symbol ticks since the last
bit boundary. -/
theorem counters_execute (n : Nat) (w : SharedMemory × LCRFSKProcessor) (hs : w.2.s = 0)
    (hc : w.2.sample_count = 0) (hb : w.1.afsk_samples_per_bit < 4294967296) :
    (execute n w).2.s = n % (10 * (w.1.afsk_samples_per_bit + 1)) % 10 ∧
    (execute n w).2.sample_count = n % (10 * (w.1.afsk_samples_per_bit + 1)) / 10 ∧
    (execute n w).1.afsk_samples_per_bit = w.1.afsk_samples_per_bit := by
  have hP : 0 < 10 * (w.1.afsk_samples_per_bit + 1) := by omega
  have hn := Nat.div_add_mod n (10 * (w.1.afsk_samples_per_bit + 1))
  have hr := Nat.mod_lt n hP
  have hr2 := Nat.div_add_mod (n % (10 * (w.1.afsk_samples_per_bit + 1))) 10
  have ht := Nat.mod_lt (n % (10 * (w.1.afsk_samples_per_bit + 1))) (by omega : 0 < 10)
  obtain ⟨h1, h2, h3⟩ := execute_bits (n / (10 * (w.1.afsk_samples_per_bit + 1))) w hs hc hb
  have hspb : (execute (10 * (w.1.afsk_samples_per_bit + 1) *
      (n / (10 * (w.1.afsk_samples_per_bit + 1)))) w).1.afsk_samples_per_bit
        = w.1.afsk_samples_per_bit := by
    rw [← framing_spb, h1, bit_boundaries_spb, framing_spb]
  obtain ⟨g1, g2, g3⟩ := execute_within_bit
    (n % (10 * (w.1.afsk_samples_per_bit + 1)) / 10)
    (n % (10 * (w.1.afsk_samples_per_bit + 1)) % 10)
    (execute (10 * (w.1.afsk_samples_per_bit + 1) *
      (n / (10 * (w.1.afsk_samples_per_bit + 1)))) w) h2 h3
    (by rw [hspb]; omega) (by omega) (by omega)
  rw [hr2, ← execute_add, hn] at g1 g2 g3
  exact ⟨g2, g3, by rw [spb_of_framing_eq g1, hspb]⟩

/-- A number `m + 1` is a multiple of `P` exactly when `m` leaves the remainder
`P - 1`. -/
theorem dvd_succ_iff_mod (P m : Nat) (hP : 0 < P) : P ∣ m + 1 ↔ m % P + 1 = P := by
  have hr := Nat.mod_lt m hP
  have e : (m + 1) % P = (m % P + 1) % P := (Nat.mod_add_mod m P 1).symm
  rw [Nat.dvd_iff_mod_eq_zero, e]
  constructor
  · intro h
    by_contra hne
    rw [Nat.mod_eq_of_lt (by omega)] at h
    omega
  · intro h
    rw [h, Nat.mod_self]

/-- From a state at the start of a bit, sample number `m + 1` is a symbol tick
exactly when it is a multiple of 10. -/
theorem tick_due_iff (m : Nat) (w : SharedMemory × LCRFSKProcessor) (hs : w.2.s = 0)
    (hc : w.2.sample_count = 0) (hb : w.1.afsk_samples_per_bit < 4294967296) :
    tick_due (execute m w) = true ↔ 10 ∣ m + 1 := by
  obtain ⟨h1, -, -⟩ := counters_execute m w hs hc hb
  have e : m % (10 * (w.1.afsk_samples_per_bit + 1)) % 10 = m % 10 :=
    Nat.mod_mod_of_dvd m (Dvd.intro _ rfl)
  rw [tick_due, decide_eq_true_iff, h1, e]
  omega

/-- From a state at the start of a bit, sample number `m + 1` runs the
bit-boundary block exactly when it is a multiple of
`10 * (afsk_samples_per_bit + 1)`. -/
theorem boundary_due_iff (m : Nat) (w : SharedMemory × LCRFSKProcessor) (hs : w.2.s = 0)
    (hc : w.2.sample_count = 0) (hb : w.1.afsk_samples_per_bit < 4294967296) :
    boundary_due (execute m w) = true ↔ 10 * (w.1.afsk_samples_per_bit + 1) ∣ m + 1 := by
  obtain ⟨h1, h2, h3⟩ := counters_execute m w hs hc hb
  have hP : 0 < 10 * (w.1.afsk_samples_per_bit + 1) := by omega
  have hr := Nat.mod_lt m hP
  rw [dvd_succ_iff_mod _ m hP, boundary_due, tick_due, Bool.and_eq_true, decide_eq_true_iff,
    decide_eq_true_iff, h1, h2, h3]
  omega

/-- The number of samples among the first `n` that run the bit-boundary
block. -/
theorem boundary_count (n : Nat) (w : SharedMemory × LCRFSKProcessor) (hs : w.2.s = 0)
    (hc : w.2.sample_count = 0) (hb : w.1.afsk_samples_per_bit < 4294967296) :
    ((List.range n).filter (fun i => boundary_due (execute i w))).length
      = n / (10 * (w.1.afsk_samples_per_bit + 1)) := by
  induction n with
  | zero => simp
  | succ n ih =>
    rw [List.range_succ, List.filter_append, List.length_append, ih, Nat.succ_div]
    by_cases hd : 10 * (w.1.afsk_samples_per_bit + 1) ∣ n + 1
    · simp [hd, (boundary_due_iff n w hs hc hb).mpr hd]
    · have hf : boundary_due (execute n w) = false := by
        cases hx : boundary_due (execute n w) with
        | false => rfl
        | true => exact absurd ((boundary_due_iff n w hs hc hb).mp hx) hd
      simp [hd, hf]

/-- What a sample does to the framing state: the bit-boundary block when it is
due, nothing otherwise. -/
theorem framing_execute_sample (w : SharedMemory × LCRFSKProcessor)
    (hb : w.1.afsk_samples_per_bit < 4294967296) :
    framing (execute_sample w)
      = if boundary_due w = true then bit_boundary (framing w) else framing w := by
  by_cases h9 : 9 ≤ w.2.s
  · by_cases hc : w.1.afsk_samples_per_bit ≤ w.2.sample_count
    · have hd : boundary_due w = true := by simp [boundary_due, tick_due, h9, hc]
      rw [hd, if_pos rfl]
      exact (execute_sample_boundary w h9 hc).1
    · have hd : boundary_due w = false := by simp [boundary_due, tick_due, hc]
      rw [hd]
      exact (execute_sample_tick w h9 (by omega) hb).1
  · have hd : boundary_due w = false := by simp [boundary_due, tick_due, h9]
    rw [hd]
    exact (execute_sample_idle w (by omega)).1

/-- C21: bit timing from the freshly constructed state, for every 32-bit
samples-per-bit value `N = afsk_samples_per_bit` and every output sample number
`n >= 1` (the sample that starts in the state after `n - 1` samples). The sample
is a symbol tick exactly when `n` is a multiple of 10, and it runs the
bit-boundary block exactly when `n` is a multiple of `10 * (N + 1)`; the
bit-boundary block is all a sample does to the framing state. So among the
first `n` samples `n / (10 * (N + 1))` are bit boundaries, the `j`-th boundary
is sample `10 * (N + 1) * j`, and after that sample the framing state is that of
`j` bit boundaries: a bit lasts `N + 1` symbol ticks. -/
theorem C21_bit_boundary_every_ten_times_n_plus_one_samples (sm : SharedMemory) (n : Nat)
    (hN : sm.afsk_samples_per_bit < 4294967296) (hn : 1 ≤ n) :
    (tick_due (execute (n - 1) (sm, fresh)) = true ↔ 10 ∣ n) ∧
    (boundary_due (execute (n - 1) (sm, fresh)) = true ↔
      10 * (sm.afsk_samples_per_bit + 1) ∣ n) ∧
    framing (execute n (sm, fresh))
      = (if boundary_due (execute (n - 1) (sm, fresh)) = true
          then bit_boundary (framing (execute (n - 1) (sm, fresh)))
          else framing (execute (n - 1) (sm, fresh))) ∧
    ((List.range n).filter (fun i => boundary_due (execute i (sm, fresh)))).length
      = n / (10 * (sm.afsk_samples_per_bit + 1)) ∧
    (∀ j : Nat, framing (execute (10 * (sm.afsk_samples_per_bit + 1) * j) (sm, fresh))
      = bit_boundaries j (sm, fresh)) := by
  obtain ⟨m, rfl⟩ : ∃ m, n = m + 1 := ⟨n - 1, by omega⟩
  have hspb := (counters_execute m (sm, fresh) rfl rfl hN).2.2
  refine ⟨?_, ?_, ?_, ?_, ?_⟩
  · exact tick_due_iff m (sm, fresh) rfl rfl hN
  · exact boundary_due_iff m (sm, fresh) rfl rfl hN
  · rw [Nat.add_sub_cancel]
    exact framing_execute_sample (execute m (sm, fresh)) (by rw [hspb]; exact hN)
  · exact boundary_count (m + 1) (sm, fresh) rfl rfl hN
  · intro j
    exact (execute_bits j (sm, fresh) rfl rfl hN).1

/-- Witness for C21: `afsk_samples_per_bit = 1`, so a bit lasts 20 samples, at
sample number 20. -/
theorem C21_bit_boundary_every_ten_times_n_plus_one_samples_witness :
    ((lcr_shared [0x41, 0] 1 353205 647542 500 0).afsk_samples_per_bit < 4294967296 ∧
      1 ≤ 20) ∧
    (boundary_due (execute (20 - 1) (lcr_shared [0x41, 0] 1 353205 647542 500 0, fresh)) = true ↔
      10 * ((lcr_shared [0x41, 0] 1 353205 647542 500 0).afsk_samples_per_bit + 1) ∣ 20) :=
  ⟨⟨by decide, by decide⟩,
   (C21_bit_boundary_every_ten_times_n_plus_one_samples
      (lcr_shared [0x41, 0] 1 353205 647542 500 0) 20 (by decide) (by decide)).2.1⟩

end LCRFSKProcessor

end Baseband

namespace Baseband

namespace LCRFSKProcessor

/-! ## LCR/FSK generator: passes over the data buffer -/

/-- The bit the code selects from the frame word at bit position `u` is entry
`u` of the frame. -/
theorem frame_bits_getD (b u : Nat) (hb : b < 256) (hu : u < 10) :
    ((((b <<< 1) % 65536) ||| 1) >>> (9 - u)) &&& 1 = (frame_bits b).getD u 0 := by
  have h := frame_word_bits b hb
  have e : (frame_bits b).getD u 0
      = ((List.range 10).map
          (fun i => ((((b <<< 1) % 65536) ||| 1) >>> (9 - i)) &&& 1)).getD u 0 := by
    rw [h]; rfl
  rw [e, List.getD_eq_getElem?_getD, List.getElem?_map, List.getElem?_range hu]
  rfl

/-- The rest of the frame of a non-zero byte `b`, from any bit position: the
bits sent, the shared memory left alone, and the state at the end. -/
theorem rest_of_frame (w : SharedMemory × LCRFSKProcessor) (b : Nat)
    (hb1 : 1 ≤ b) (hb2 : b ≤ 255) (hq : w.2.bit_pos ≤ 9)
    (hdone : w.1.afsk_transmit_done = false) (hbyte : w.1.lcrdata w.2.byte_pos % 256 = b) :
    (∀ k, w.2.bit_pos + k < 10 →
      (bit_boundaries (k + 1) w).2.cur_bit = (frame_bits b).getD (w.2.bit_pos + k) 0) ∧
    (∀ k, w.2.bit_pos + k ≤ 10 → (bit_boundaries k w).1 = w.1) ∧
    (bit_boundaries (10 - w.2.bit_pos) w).2.bit_pos = 0 ∧
    (bit_boundaries (10 - w.2.bit_pos) w).2.byte_pos = (w.2.byte_pos + 1) % 256 := by
  have hb : b ≠ 0 := by omega
  have last := bit_boundaries_frame w b hdone hbyte hb hq
  refine ⟨?_, ?_, ?_, ?_⟩
  · intro k hk
    by_cases h9 : w.2.bit_pos + k = 9
    · have e : k + 1 = 10 - w.2.bit_pos := by omega
      rw [e, last, ← frame_bits_getD b _ (by omega) (by omega), h9, Nat.sub_self]
    · rw [bit_boundaries_data k w b hdone hbyte hb (by omega),
        ← frame_bits_getD b _ (by omega) (by omega)]
  · intro k hk
    cases k with
    | zero => rfl
    | succ k =>
      by_cases h9 : w.2.bit_pos + k = 9
      · have e : k + 1 = 10 - w.2.bit_pos := by omega
        rw [e, last]
      · rw [bit_boundaries_data k w b hdone hbyte hb (by omega)]
  · rw [last]
  · rw [last]

/-- The frame of a non-zero byte fetched at `bit_pos = 0`. -/
theorem frame_step_fetch (w : SharedMemory × LCRFSKProcessor) (b : Nat)
    (hb1 : 1 ≤ b) (hb2 : b ≤ 255) (hpos : w.2.bit_pos = 0)
    (hdone : w.1.afsk_transmit_done = false) (hbyte : w.1.lcrdata w.2.byte_pos % 256 = b) :
    (∀ u, u < 10 → (bit_boundaries (u + 1) w).2.cur_bit = (frame_bits b).getD u 0) ∧
    (∀ u, u ≤ 10 → (bit_boundaries u w).1 = w.1) ∧
    (bit_boundaries 10 w).2.bit_pos = 0 ∧
    (bit_boundaries 10 w).2.byte_pos = (w.2.byte_pos + 1) % 256 := by
  obtain ⟨h1, h2, h3, h4⟩ := rest_of_frame w b hb1 hb2 (by omega) hdone hbyte
  rw [hpos] at h1 h2
  rw [hpos, Nat.sub_zero] at h3 h4
  refine ⟨?_, ?_, h3, h4⟩
  · intro u hu
    have := h1 u (by omega)
    rw [Nat.zero_add] at this
    exact this
  · intro u hu
    exact h2 u (by omega)

/-- The frame of byte 0 fetched by the rewind at the terminator while repeats
remain: ten boundaries starting with the terminator boundary. -/
theorem frame_step_rewind (v : SharedMemory × LCRFSKProcessor) (c : Nat)
    (hc1 : 1 ≤ c) (hc2 : c ≤ 255) (hdone : v.1.afsk_transmit_done = false)
    (hterm : v.1.lcrdata v.2.byte_pos % 256 = 0) (hrep : v.1.afsk_repeat ≠ 0)
    (hbyte : v.1.lcrdata 0 % 256 = c) :
    (∀ u, u < 10 → (bit_boundaries (u + 1) v).2.cur_bit = (frame_bits c).getD u 0) ∧
    (∀ u, 1 ≤ u → u ≤ 10 →
      (bit_boundaries u v).1.afsk_transmit_done = false ∧
      (bit_boundaries u v).1.lcrdata = v.1.lcrdata ∧
      (bit_boundaries u v).1.afsk_repeat = v.1.afsk_repeat - 1) ∧
    (bit_boundaries 10 v).2.bit_pos = 0 ∧
    (bit_boundaries 10 v).2.byte_pos = 1 := by
  have g1 : (bit_boundary v).1.afsk_transmit_done = false := by
    simp [bit_boundary, frame_bit, hdone, hterm, hrep]
  have g2 : (bit_boundary v).2.byte_pos = 0 := by
    simp [bit_boundary, frame_bit, hdone, hterm, hrep]
  have g3 : (bit_boundary v).1.lcrdata (bit_boundary v).2.byte_pos % 256 = c := by
    rw [g2]
    simp [bit_boundary, frame_bit, hdone, hterm, hrep, hbyte]
  have g4 : (bit_boundary v).2.bit_pos = 1 := by
    simp [bit_boundary, frame_bit, hdone, hterm, hrep]
  have g5 : (bit_boundary v).2.cur_bit = ((((c <<< 1) % 65536) ||| 1) >>> (9 - 0)) &&& 1 := by
    simp [bit_boundary, frame_bit, hdone, hterm, hrep, hbyte]
  have g6 : (bit_boundary v).1.lcrdata = v.1.lcrdata := by
    simp [bit_boundary, frame_bit, hdone, hterm, hrep]
  have g7 : (bit_boundary v).1.afsk_repeat = v.1.afsk_repeat - 1 := by
    simp [bit_boundary, frame_bit, hdone, hterm, hrep]
  obtain ⟨h1, h2, h3, h4⟩ := rest_of_frame (bit_boundary v) c hc1 hc2 (by omega) g1 g3
  rw [g4] at h1 h2 h3
  rw [g4, g2] at h4
  have e9 : 10 - 1 = 9 := rfl
  have e10 : 9 + 1 = 10 := rfl
  rw [e9, ← bit_boundaries_succ_left, e10] at h3 h4
  refine ⟨?_, ?_, h3, h4⟩
  · intro u hu
    cases u with
    | zero => rw [← frame_bits_getD c 0 (by omega) (by omega)]; exact g5
    | succ u =>
      have := h1 u (by omega)
      rw [← bit_boundaries_succ_left, Nat.add_comm 1 u] at this
      exact this
  · intro u hu1 hu
    obtain ⟨k, rfl⟩ : ∃ k, u = k + 1 := ⟨u - 1, by omega⟩
    rw [bit_boundaries_succ_left, h2 k (by omega)]
    exact ⟨g1, g6, g7⟩

/-- A run of `m` non-zero bytes read through the 8-bit cursor `byte_pos`,
starting at `bit_pos = 0`: `10 * m` boundaries send their frames and leave the
shared memory alone; the cursor advances by `m` modulo 256. -/
theorem data_frames (m : Nat) (w : SharedMemory × LCRFSKProcessor) (hpos : w.2.bit_pos = 0)
    (hbp : w.2.byte_pos < 256) (hdone : w.1.afsk_transmit_done = false)
    (hdata : ∀ t, t < m → 1 ≤ w.1.lcrdata ((w.2.byte_pos + t) % 256) % 256) :
    (∀ t u, t < m → u < 10 →
      (bit_boundaries (10 * t + u + 1) w).2.cur_bit
        = (frame_bits (w.1.lcrdata ((w.2.byte_pos + t) % 256) % 256)).getD u 0) ∧
    (∀ j, j ≤ 10 * m → (bit_boundaries j w).1 = w.1) ∧
    (bit_boundaries (10 * m) w).2.bit_pos = 0 ∧
    (bit_boundaries (10 * m) w).2.byte_pos = (w.2.byte_pos + m) % 256 := by
  induction m with
  | zero =>
    refine ⟨fun t u ht => absurd ht (Nat.not_lt_zero t), ?_, hpos, ?_⟩
    · intro j hj
      have : j = 0 := by omega
      subst this
      rfl
    · rw [Nat.add_zero, Nat.mod_eq_of_lt hbp]
      rfl
  | succ m ih =>
    obtain ⟨i1, i2, i3, i4⟩ := ih (fun t ht => hdata t (by omega))
    have hsm := i2 (10 * m) (Nat.le_refl _)
    have hb1 := hdata m (by omega)
    have hb2 : w.1.lcrdata ((w.2.byte_pos + m) % 256) % 256 ≤ 255 := by omega
    have hbyte : (bit_boundaries (10 * m) w).1.lcrdata (bit_boundaries (10 * m) w).2.byte_pos % 256
        = w.1.lcrdata ((w.2.byte_pos + m) % 256) % 256 := by
      rw [hsm, i4]
    obtain ⟨f1, f2, f3, f4⟩ := frame_step_fetch (bit_boundaries (10 * m) w) _ hb1 hb2 i3
      (by rw [hsm]; exact hdone) hbyte
    have e10 : 10 * (m + 1) = 10 * m + 10 := by omega
    refine ⟨?_, ?_, ?_, ?_⟩
    · intro t u ht hu
      by_cases htm : t < m
      · exact i1 t u htm hu
      · have : t = m := by omega
        subst this
        rw [Nat.add_assoc, bit_boundaries_add]
        exact f1 u hu
    · intro j hj
      by_cases hjm : j ≤ 10 * m
      · exact i2 j hjm
      · have e : j = 10 * m + (j - 10 * m) := by omega
        rw [e, bit_boundaries_add, f2 _ (by omega), hsm]
    · rw [e10, bit_boundaries_add]
      exact f3
    · rw [e10, bit_boundaries_add, f4, i4]
      omega

/-- One repeat pass, starting at the terminator boundary with repeats left:
`10 * L` boundaries send the frames of the `L` bytes, take one from
`afsk_repeat`, and end at the terminator again. -/
theorem repeat_pass (L : Nat) (v : SharedMemory × LCRFSKProcessor) (hL1 : 1 ≤ L)
    (hL2 : L ≤ 255) (hdata : ∀ t, t < L → 1 ≤ v.1.lcrdata t ∧ v.1.lcrdata t ≤ 255)
    (hdone : v.1.afsk_transmit_done = false)
    (hterm : v.1.lcrdata v.2.byte_pos % 256 = 0) (hrep : v.1.afsk_repeat ≠ 0) :
    (∀ t u, t < L → u < 10 →
      (bit_boundaries (10 * t + u + 1) v).2.cur_bit = (frame_bits (v.1.lcrdata t)).getD u 0) ∧
    (bit_boundaries (10 * L) v).1.afsk_transmit_done = false ∧
    (bit_boundaries (10 * L) v).1.lcrdata = v.1.lcrdata ∧
    (bit_boundaries (10 * L) v).1.afsk_repeat = v.1.afsk_repeat - 1 ∧
    (bit_boundaries (10 * L) v).2.bit_pos = 0 ∧
    (bit_boundaries (10 * L) v).2.byte_pos = L := by
  have hc := hdata 0 (by omega)
  have hc0 : v.1.lcrdata 0 % 256 = v.1.lcrdata 0 := by omega
  obtain ⟨r1, r2, r3, r4⟩ := frame_step_rewind v (v.1.lcrdata 0) hc.1 hc.2 hdone hterm hrep hc0
  obtain ⟨s1, s2, s3⟩ := r2 10 (by omega) (Nat.le_refl _)
  have hd2 : ∀ t, t < L - 1 →
      1 ≤ (bit_boundaries 10 v).1.lcrdata (((bit_boundaries 10 v).2.byte_pos + t) % 256)
        % 256 := by
    intro t ht
    have := hdata (1 + t) (by omega)
    have e : (1 + t) % 256 = 1 + t := by omega
    rw [s2, r4, e]
    omega
  obtain ⟨d1, d2, d3, d4⟩ := data_frames (L - 1) (bit_boundaries 10 v) r3 (by rw [r4]; omega)
    s1 hd2
  have hsm := d2 (10 * (L - 1)) (Nat.le_refl _)
  have eL : 10 * L = 10 + 10 * (L - 1) := by omega
  refine ⟨?_, ?_, ?_, ?_, ?_, ?_⟩
  · intro t u ht hu
    cases t with
    | zero =>
      rw [Nat.mul_zero, Nat.zero_add]
      exact r1 u hu
    | succ t =>
      have := d1 t u (by omega) hu
      have e : 10 * (t + 1) + u + 1 = 10 + (10 * t + u + 1) := by omega
      have e2 : (1 + t) % 256 = 1 + t := by omega
      have e3 := hdata (1 + t) (by omega)
      have e4 : v.1.lcrdata (1 + t) % 256 = v.1.lcrdata (1 + t) := by omega
      rw [s2, r4, e2, e4, ← bit_boundaries_add, ← e, Nat.add_comm 1 t] at this
      exact this
  · rw [eL, bit_boundaries_add, hsm]; exact s1
  · rw [eL, bit_boundaries_add, hsm]; exact s2
  · rw [eL, bit_boundaries_add, hsm]; exact s3
  · rw [eL, bit_boundaries_add]; exact d3
  · rw [eL, bit_boundaries_add, d4, r4]
    omega

/-- The passes over a buffer of `L` non-zero bytes (`L <= 255`) and a
terminator, from the freshly constructed state: after pass `r` (the first is
pass 0) the cursor is at the terminator and `afsk_repeat` has gone down by
`r`. -/
theorem passes (sm : SharedMemory) (L : Nat) (hL1 : 1 ≤ L) (hL2 : L ≤ 255)
    (hdata : ∀ t, t < L → 1 ≤ sm.lcrdata t ∧ sm.lcrdata t ≤ 255)
    (hterm : sm.lcrdata L = 0) (hdone : sm.afsk_transmit_done = false) (r : Nat)
    (hr : r ≤ sm.afsk_repeat) :
    (∀ q t u, q ≤ r → t < L → u < 10 →
      (bit_boundaries (10 * (L * q + t) + u + 1) (sm, fresh)).2.cur_bit
        = (frame_bits (sm.lcrdata t)).getD u 0) ∧
    (bit_boundaries (10 * L * (r + 1)) (sm, fresh)).1.afsk_transmit_done = false ∧
    (bit_boundaries (10 * L * (r + 1)) (sm, fresh)).1.lcrdata = sm.lcrdata ∧
    (bit_boundaries (10 * L * (r + 1)) (sm, fresh)).1.afsk_repeat = sm.afsk_repeat - r ∧
    (bit_boundaries (10 * L * (r + 1)) (sm, fresh)).2.bit_pos = 0 ∧
    (bit_boundaries (10 * L * (r + 1)) (sm, fresh)).2.byte_pos = L := by
  induction r with
  | zero =>
    have hd : ∀ t, t < L → 1 ≤ sm.lcrdata ((0 + t) % 256) % 256 := by
      intro t ht
      have := hdata t ht
      have e : (0 + t) % 256 = t := by omega
      rw [e]
      omega
    obtain ⟨d1, d2, d3, d4⟩ := data_frames L (sm, fresh) rfl (Nat.zero_lt_succ 255) hdone hd
    have hsm := d2 (10 * L) (Nat.le_refl _)
    have e1 : 10 * L * (0 + 1) = 10 * L := by omega
    rw [e1]
    refine ⟨?_, ?_, ?_, ?_, d3, ?_⟩
    · intro q t u hq ht hu
      have hq0 : q = 0 := by omega
      subst hq0
      have := d1 t u ht hu
      have e : (0 + t) % 256 = t := by omega
      have e2 := hdata t ht
      have e3 : sm.lcrdata t % 256 = sm.lcrdata t := by omega
      have e4 : (sm, fresh).2.byte_pos = 0 := rfl
      rw [e4, e, e3] at this
      rw [Nat.mul_zero, Nat.zero_add]
      exact this
    · rw [hsm]; exact hdone
    · rw [hsm]
    · rw [hsm]; rfl
    · rw [d4]
      have e4 : (sm, fresh).2.byte_pos = 0 := rfl
      rw [e4]
      omega
  | succ r ih =>
    obtain ⟨i1, i2, i3, i4, i5, i6⟩ := ih (by omega)
    have hterm2 : (bit_boundaries (10 * L * (r + 1)) (sm, fresh)).1.lcrdata
        (bit_boundaries (10 * L * (r + 1)) (sm, fresh)).2.byte_pos % 256 = 0 := by
      rw [i3, i6, hterm]
    obtain ⟨p1, p2, p3, p4, p5, p6⟩ := repeat_pass L (bit_boundaries (10 * L * (r + 1)) (sm, fresh))
      hL1 hL2 (by rw [i3]; exact hdata) i2 hterm2 (by rw [i4]; omega)
    have e1 : 10 * L * (r + 1 + 1) = 10 * L * (r + 1) + 10 * L := by ring
    rw [e1, bit_boundaries_add]
    refine ⟨?_, p2, ?_, ?_, p5, p6⟩
    · intro q t u hq ht hu
      by_cases hqr : q ≤ r
      · exact i1 q t u hqr ht hu
      · have hq1 : q = r + 1 := by omega
        subst hq1
        have := p1 t u ht hu
        have e : 10 * (L * (r + 1) + t) + u + 1 = 10 * L * (r + 1) + (10 * t + u + 1) := by
          ring
        rw [← bit_boundaries_add, ← e, i3] at this
        exact this
    · rw [p3, i3]
    · rw [p4, i4]
      omega

/-- Every index an 8-bit cursor can take holds a non-zero byte in the buffer of
`lcr_shared_256`. -/
theorem lcr_shared_256_data (i : Nat) (hi : i < 256) : lcr_shared_256.lcrdata i = 0x41 := by
  have hlen : i < (List.replicate 256 0x41).length := by rw [List.length_replicate]; exact hi
  show (List.replicate 256 0x41 ++ [0]).getD i 0 = 0x41
  rw [List.getD_eq_getElem?_getD, List.getElem?_append_left hlen, List.getElem?_replicate,
    if_pos hi]
  rfl

/-- C22 (counterexample): the buffer of 256 bytes `0x41` (indices `0..255`)
followed by the zero terminator at index 256, with `afsk_repeat = 0`. Here
`L = 256` and `R = 0`, so the claim puts the completion at bit boundary
`10 * 256 * (0 + 1) + 1`. After the `10 * 256` boundaries of the 256 frames the
8-bit cursor `byte_pos` has wrapped to `0`, the next boundary fetches
`lcrdata[0] = 0x41` instead of the terminator, and `afsk_transmit_done` is still
false; with one symbol tick per bit that boundary is output sample
`10 * (0 + 1) * (10 * 256 + 1)`. -/
theorem C22_cursor_wraps_before_terminator_at_index_256 :
    lcr_shared_256.lcrdata 255 = 0x41 ∧ lcr_shared_256.lcrdata 256 = 0 ∧
    lcr_shared_256.afsk_repeat = 0 ∧
    (bit_boundaries (10 * 256) (lcr_shared_256, fresh)).2.byte_pos = 0 ∧
    (bit_boundaries (10 * 256 + 1) (lcr_shared_256, fresh)).1.afsk_transmit_done = false ∧
    (execute (10 * (lcr_shared_256.afsk_samples_per_bit + 1) * (10 * 256 + 1))
      (lcr_shared_256, fresh)).1.afsk_transmit_done = false := by
  have hd : ∀ t, t < 257 →
      1 ≤ (lcr_shared_256, fresh).1.lcrdata (((lcr_shared_256, fresh).2.byte_pos + t) % 256)
        % 256 := by
    intro t _
    have e : (lcr_shared_256, fresh).1.lcrdata
        (((lcr_shared_256, fresh).2.byte_pos + t) % 256) = 0x41 :=
      lcr_shared_256_data _ (Nat.mod_lt _ (by decide))
    rw [e]
    decide
  obtain ⟨-, d2, -, -⟩ := data_frames 257 (lcr_shared_256, fresh) rfl (Nat.zero_lt_succ 255)
    rfl hd
  obtain ⟨-, -, -, c4⟩ := data_frames 256 (lcr_shared_256, fresh) rfl (Nat.zero_lt_succ 255)
    rfl (fun t ht => hd t (by omega))
  have hb : (bit_boundaries (10 * 256 + 1) (lcr_shared_256, fresh)).1.afsk_transmit_done
      = false := by
    rw [d2 (10 * 256 + 1) (by decide)]
    rfl
  obtain ⟨h1, -, -⟩ := execute_bits (10 * 256 + 1) (lcr_shared_256, fresh) rfl rfl (by decide)
  rw [framing_fresh] at h1
  refine ⟨lcr_shared_256_data 255 (by decide), rfl, rfl, ?_, hb, ?_⟩
  · rw [c4]
    rfl
  · rw [← framing_fst (execute (10 * (lcr_shared_256.afsk_samples_per_bit + 1) * (10 * 256 + 1))
      (lcr_shared_256, fresh)), h1]
    exact hb

/-- C22 (amended): for every data buffer of `L` non-zero bytes, `1 <= L <= 255`,
followed by the zero terminator (the cursor `byte_pos` is 8 bits wide, so the
terminator has to sit at an index up to 255) and every initial repeat count
`R = afsk_repeat`, from the freshly constructed state with transmission not
done: the bit set at bit boundary `k + 1`, for every `k < 10 * L * (R + 1)`, is
bit `k mod 10` of the frame of byte `(k / 10) mod L`, that is the frames of the
`L` bytes in order, repeated `R + 1` times; `afsk_transmit_done` is false up to
and including boundary `10 * L * (R + 1)` and true at the next boundary, where
`afsk_repeat = 0`. Boundary `j` is reached after `10 * (N + 1) * j` samples,
`N = afsk_samples_per_bit`. -/
theorem C22_buffer_is_sent_repeat_plus_one_times (sm : SharedMemory) (L : Nat)
    (hL1 : 1 ≤ L) (hL2 : L ≤ 255)
    (hdata : ∀ t, t < L → 1 ≤ sm.lcrdata t ∧ sm.lcrdata t ≤ 255)
    (hterm : sm.lcrdata L = 0) (hdone : sm.afsk_transmit_done = false)
    (hN : sm.afsk_samples_per_bit < 4294967296) :
    (∀ k, k < 10 * L * (sm.afsk_repeat + 1) →
      (bit_boundaries (k + 1) (sm, fresh)).2.cur_bit
        = (frame_bits (sm.lcrdata (k / 10 % L))).getD (k % 10) 0) ∧
    (∀ j, j ≤ 10 * L * (sm.afsk_repeat + 1) →
      (bit_boundaries j (sm, fresh)).1.afsk_transmit_done = false) ∧
    (bit_boundaries (10 * L * (sm.afsk_repeat + 1) + 1) (sm, fresh)).1.afsk_transmit_done
      = true ∧
    (bit_boundaries (10 * L * (sm.afsk_repeat + 1) + 1) (sm, fresh)).1.afsk_repeat = 0 ∧
    (∀ j, (execute (10 * (sm.afsk_samples_per_bit + 1) * j) (sm, fresh)).1
        = (bit_boundaries j (sm, fresh)).1 ∧
      (execute (10 * (sm.afsk_samples_per_bit + 1) * j) (sm, fresh)).2.cur_bit
        = (bit_boundaries j (sm, fresh)).2.cur_bit) := by
  obtain ⟨p1, p2, p3, p4, -, p6⟩ :=
    passes sm L hL1 hL2 hdata hterm hdone sm.afsk_repeat (Nat.le_refl _)
  have hterm2 : (bit_boundaries (10 * L * (sm.afsk_repeat + 1)) (sm, fresh)).1.lcrdata
      (bit_boundaries (10 * L * (sm.afsk_repeat + 1)) (sm, fresh)).2.byte_pos % 256 = 0 := by
    rw [p3, p6, hterm]
  have hrep0 : (bit_boundaries (10 * L * (sm.afsk_repeat + 1)) (sm, fresh)).1.afsk_repeat
      = 0 := by
    rw [p4, Nat.sub_self]
  have hlast := bit_boundary_done _ p2 hterm2 hrep0
  refine ⟨?_, ?_, ?_, ?_, ?_⟩
  · intro k hk
    have hL : 0 < L := by omega
    have e1 : 10 * L * (sm.afsk_repeat + 1) = (sm.afsk_repeat + 1) * L * 10 := by ring
    have h10 : k / 10 < (sm.afsk_repeat + 1) * L :=
      (Nat.div_lt_iff_lt_mul (by decide)).mpr (by rw [← e1]; exact hk)
    have hq : k / 10 / L < sm.afsk_repeat + 1 := (Nat.div_lt_iff_lt_mul hL).mpr h10
    have e : 10 * (L * (k / 10 / L) + k / 10 % L) + k % 10 = k := by
      rw [Nat.div_add_mod (k / 10) L, Nat.div_add_mod k 10]
    have := p1 (k / 10 / L) (k / 10 % L) (k % 10) (by omega) (Nat.mod_lt _ hL)
      (Nat.mod_lt _ (by decide))
    rw [e] at this
    exact this
  · intro j hj
    exact bit_boundaries_not_done_before j _ (sm, fresh) hj p2
  · rw [bit_boundaries, hlast]
  · rw [bit_boundaries, hlast]
    exact hrep0
  · intro j
    obtain ⟨h1, -, -⟩ := execute_bits j (sm, fresh) rfl rfl hN
    rw [framing_fresh] at h1
    rw [← h1]
    exact ⟨rfl, rfl⟩

/-- Witness for C22 (amended): the buffer `[0x41, 0x00]` (`L = 1`) with
`afsk_repeat = 2`: completion at boundary `10 * 1 * (2 + 1) + 1`. -/
theorem C22_buffer_is_sent_repeat_plus_one_times_witness :
    ((1 ≤ 1 ∧ 1 ≤ 255) ∧
     (1 ≤ (lcr_shared [0x41, 0] 0 353205 647542 500 2).lcrdata 0 ∧
      (lcr_shared [0x41, 0] 0 353205 647542 500 2).lcrdata 0 ≤ 255) ∧
     (lcr_shared [0x41, 0] 0 353205 647542 500 2).lcrdata 1 = 0 ∧
     (lcr_shared [0x41, 0] 0 353205 647542 500 2).afsk_transmit_done = false ∧
     (lcr_shared [0x41, 0] 0 353205 647542 500 2).afsk_samples_per_bit < 4294967296) ∧
    (bit_boundaries (10 * 1 * ((lcr_shared [0x41, 0] 0 353205 647542 500 2).afsk_repeat + 1) + 1)
      (lcr_shared [0x41, 0] 0 353205 647542 500 2, fresh)).1.afsk_transmit_done = true :=
  ⟨⟨⟨by decide, by decide⟩, ⟨by decide, by decide⟩, rfl, rfl, by decide⟩,
   (C22_buffer_is_sent_repeat_plus_one_times (lcr_shared [0x41, 0] 0 353205 647542 500 2) 1
      (by decide) (by decide)
      (fun t ht => by
        have h0 : t = 0 := by omega
        subst h0
        exact ⟨by decide, by decide⟩)
      rfl rfl (by decide)).2.2.1⟩

end LCRFSKProcessor
end Baseband

namespace Baseband

namespace HotSwap

/-! ## Hot swap: detach before destroy -/

end HotSwap

namespace HandlerState

end HandlerState

namespace HotSwap

end HotSwap

end Baseband
